import Mathlib

/-!
Verification development for the `email-monitor` repository (TypeScript on
Google Apps Script).  The definitions below are a shallow embedding of the
program's source files:

* `src/line/LineService.ts` — `LineService` (push + retry) and
  `MessageFormatter` (LINE text formatting with a 5000-character cap);
* `src/email/EmailParser.ts` — the regex-pattern todo extractor and the
  whitelist-query variant of `EmailService.fetchNewEmails`;
* `src/email/EmailService.ts` — the plain variant of `fetchNewEmails`,
  `filterBySender`, and the orchestrator (`processEmail`,
  `processFilteredEmails`, `sendRunSummary`, `processEmails`);
* `src/config/ConfigService.ts` — `getConfig` / `updateLastProcessedTime`;
* `GeminiService` (embedded verbatim in
  `specs/001-email-line-integration/spec.md`) — `callGeminiAPI`,
  `parseTodosFromResponse`, `extractTodos`;
* `src/main.ts` — the webpack entry-point orchestrator.

JavaScript strings are modelled as Lean `String`s (sequences of code
points); JavaScript numbers that can be `NaN` are modelled as
`Option Int` with `none` standing for `NaN`.  External collaborators
(`UrlFetchApp.fetch`, `GmailApp.search`, `PropertiesService`, the clock)
are modelled as oracle inputs; side effects (watermark writes, LINE
pushes, run-summary dispatches) are collected in an explicit trace state.
-/

/-! ## JavaScript string primitives -/

/-- Whitespace for JS `trim` / regex `\s` (ASCII subset; the exotic
Unicode space characters never appear in the sources or the inputs we
reason about). -/
def jsWs (c : Char) : Bool :=
  c = ' ' ∨ c = '\t' ∨ c = '\n' ∨ c = '\r' ∨ c = '\x0b' ∨ c = '\x0c'

/-- JS `String.prototype.trim` on a character list. -/
def jsTrimL (l : List Char) : List Char :=
  ((l.dropWhile jsWs).reverse.dropWhile jsWs).reverse

/-- JS `String.prototype.trim`. -/
def jsTrim (s : String) : String :=
  String.mk (jsTrimL s.data)

/-- JS `parseInt(s, 10)`: skip leading whitespace, optional sign, longest
digit prefix; `none` models `NaN` (no digits). -/
def jsParseInt (s : String) : Option Int :=
  let l := s.data.dropWhile jsWs
  let (neg, l) : Bool × List Char :=
    match l with
    | '-' :: rest => (true, rest)
    | '+' :: rest => (false, rest)
    | _ => (false, l)
  let digits := l.takeWhile Char.isDigit
  if digits.isEmpty then none
  else
    let v : Nat := digits.foldl (fun acc c => acc * 10 + (c.toNat - '0'.toNat)) 0
    some (if neg then -(v : Int) else (v : Int))

/-- JS `<=` between a number and a possibly-`NaN` number
(`x <= NaN` is `false`). -/
def jsLe (d : Int) (w : Option Int) : Bool :=
  match w with
  | some t => d ≤ t
  | none => false

/-! ## JSON values and `JSON.parse`

`JSON.parse` is the JS built-in used by `buildErrorResponse`,
`callGeminiAPI` and `parseTodosFromResponse`.  Numbers keep their raw
lexeme (no arithmetic is ever performed on parsed numbers in the
sources). -/

inductive Json where
  | null : Json
  | bool : Bool → Json
  | num : String → Json
  | str : String → Json
  | arr : List Json → Json
  | obj : List (String × Json) → Json
  deriving Repr, Inhabited

/-- Property lookup on a parsed JSON value; JS object literals with
duplicate keys keep the last one.  Lookup on a non-object yields
`undefined` (`none`). -/
def jGet (j : Json) (k : String) : Option Json :=
  match j with
  | .obj fields => (fields.filter (fun p => p.1 = k)).getLast?.map Prod.snd
  | _ => none

/-- Index lookup (`?.[i]`) on a parsed JSON value. -/
def jIdx (j : Json) (i : Nat) : Option Json :=
  match j with
  | .arr xs => xs.get? i
  | _ => none

def jsonWs (c : Char) : Bool :=
  c = ' ' ∨ c = '\t' ∨ c = '\n' ∨ c = '\r'

def skipJsonWs (l : List Char) : List Char := l.dropWhile jsonWs

/-- Hexadecimal digit test (for `\u` escapes). -/
def isHexDig (c : Char) : Bool :=
  c.isDigit ∨ ('a' ≤ c ∧ c ≤ 'f') ∨ ('A' ≤ c ∧ c ≤ 'F')

/-- Parse the body of a JSON string literal (after the opening quote).
Returns the decoded characters and the remaining input after the closing
quote. -/
def parseJsonString (fuel : Nat) (l : List Char) : Option (List Char × List Char) :=
  match fuel, l with
  | 0, _ => none
  | _, [] => none
  | fuel + 1, c :: rest =>
    if c = '"' then some ([], rest)
    else if c = '\\' then
      match rest with
      | [] => none
      | e :: rest' =>
        let dec : Option (Char × List Char) :=
          if e = '"' then some ('"', rest')
          else if e = '\\' then some ('\\', rest')
          else if e = '/' then some ('/', rest')
          else if e = 'b' then some ('\x08', rest')
          else if e = 'f' then some ('\x0c', rest')
          else if e = 'n' then some ('\n', rest')
          else if e = 'r' then some ('\r', rest')
          else if e = 't' then some ('\t', rest')
          else if e = 'u' then
            match rest' with
            | h1 :: h2 :: h3 :: h4 :: rest'' =>
              if isHexDig h1 && isHexDig h2 && isHexDig h3 && isHexDig h4 then
                let hv : Char → Nat := fun c =>
                  if c.isDigit then c.toNat - '0'.toNat
                  else if 'a' ≤ c ∧ c ≤ 'f' then c.toNat - 'a'.toNat + 10
                  else c.toNat - 'A'.toNat + 10
                some (Char.ofNat (((hv h1 * 16 + hv h2) * 16 + hv h3) * 16 + hv h4), rest'')
              else none
            | _ => none
          else none
        match dec with
        | none => none
        | some (ch, rest'') =>
          match parseJsonString fuel rest'' with
          | some (cs, rem) => some (ch :: cs, rem)
          | none => none
    else if c.toNat < 0x20 then none
    else
      match parseJsonString fuel rest with
      | some (cs, rem) => some (c :: cs, rem)
      | none => none

/-- Parse a JSON number lexeme (strict JSON grammar), returning the raw
lexeme and the rest. -/
def parseJsonNumber (l : List Char) : Option (List Char × List Char) :=
  let (sign, l1) : List Char × List Char :=
    match l with
    | '-' :: rest => (['-'], rest)
    | _ => ([], l)
  let intPart : Option (List Char × List Char) :=
    match l1 with
    | '0' :: rest => some (['0'], rest)
    | c :: _ =>
      if c.isDigit then
        some (l1.takeWhile Char.isDigit, l1.dropWhile Char.isDigit)
      else none
    | [] => none
  match intPart with
  | none => none
  | some (ip, l2) =>
    let (fp, l3) : List Char × List Char :=
      match l2 with
      | '.' :: rest =>
        let ds := rest.takeWhile Char.isDigit
        if ds.isEmpty then ([], l2) else ('.' :: ds, rest.dropWhile Char.isDigit)
      | _ => ([], l2)
    if fp.isEmpty && (match l2 with | '.' :: _ => true | _ => false) then none
    else
      let (ep, l4) : Option (List Char) × List Char :=
        match l3 with
        | e :: rest =>
          if e = 'e' ∨ e = 'E' then
            let (es, rest') : List Char × List Char :=
              match rest with
              | '+' :: r => (['+'], r)
              | '-' :: r => (['-'], r)
              | _ => ([], rest)
            let ds := rest'.takeWhile Char.isDigit
            if ds.isEmpty then (none, l3)
            else (some (e :: (es ++ ds)), rest'.dropWhile Char.isDigit)
          else (some [], l3)
        | [] => (some [], l3)
      match ep with
      | none => none
      | some e => some (sign ++ ip ++ fp ++ e, l4)

mutual

/-- Recursive-descent JSON value, fuelled for termination. -/
def parseJsonVal (fuel : Nat) (l : List Char) : Option (Json × List Char) :=
  match fuel with
  | 0 => none
  | fuel + 1 =>
    match l with
    | [] => none
    | c :: rest =>
      if c = '{' then
        match skipJsonWs rest with
        | '}' :: rem => some (.obj [], rem)
        | l' => (parseJsonMembers fuel l').map (fun p => (.obj p.1, p.2))
      else if c = '[' then
        match skipJsonWs rest with
        | ']' :: rem => some (.arr [], rem)
        | l' => (parseJsonElems fuel l').map (fun p => (.arr p.1, p.2))
      else if c = '"' then
        (parseJsonString (rest.length + 1) rest).map
          (fun p => (.str (String.mk p.1), p.2))
      else if c = 't' then
        match l with
        | 't' :: 'r' :: 'u' :: 'e' :: rem => some (.bool true, rem)
        | _ => none
      else if c = 'f' then
        match l with
        | 'f' :: 'a' :: 'l' :: 's' :: 'e' :: rem => some (.bool false, rem)
        | _ => none
      else if c = 'n' then
        match l with
        | 'n' :: 'u' :: 'l' :: 'l' :: rem => some (.null, rem)
        | _ => none
      else
        (parseJsonNumber l).map (fun p => (.num (String.mk p.1), p.2))

/-- `key : value` members of a JSON object (first member not yet consumed,
leading whitespace already skipped). -/
def parseJsonMembers (fuel : Nat) (l : List Char) :
    Option (List (String × Json) × List Char) :=
  match fuel with
  | 0 => none
  | fuel + 1 =>
    match l with
    | '"' :: rest =>
      match parseJsonString (rest.length + 1) rest with
      | none => none
      | some (key, rem) =>
        match skipJsonWs rem with
        | ':' :: rem' =>
          match parseJsonVal fuel (skipJsonWs rem') with
          | none => none
          | some (v, rem'') =>
            match skipJsonWs rem'' with
            | ',' :: rem''' =>
              (parseJsonMembers fuel (skipJsonWs rem''')).map
                (fun p => ((String.mk key, v) :: p.1, p.2))
            | '}' :: rem''' => some ([(String.mk key, v)], rem''')
            | _ => none
        | _ => none
    | _ => none

/-- Elements of a JSON array (first element not yet consumed, leading
whitespace already skipped). -/
def parseJsonElems (fuel : Nat) (l : List Char) :
    Option (List Json × List Char) :=
  match fuel with
  | 0 => none
  | fuel + 1 =>
    match parseJsonVal fuel l with
    | none => none
    | some (v, rem) =>
      match skipJsonWs rem with
      | ',' :: rem' =>
        (parseJsonElems fuel (skipJsonWs rem')).map (fun p => (v :: p.1, p.2))
      | ']' :: rem' => some ([v], rem')
      | _ => none

end

/-- `JSON.parse` : `none` models a thrown `SyntaxError`. -/
def parseJson (s : String) : Option Json :=
  match parseJsonVal (s.length + 1) (skipJsonWs s.data) with
  | some (j, rem) => if skipJsonWs rem = [] then some j else none
  | none => none

example : parseJson "" = none := by rfl
example : parseJson "[]" = some (.arr []) := by rfl
example : parseJson "\x7b\"a\": 1\x7d" = some (.obj [("a", .num "1")]) := by rfl
example : parseJson "[\x7b\"description\":\"\"\x7d]"
    = some (.arr [.obj [("description", .str "")]]) := by rfl
example : parseJson "not json" = none := by rfl

/-! ## LineService (`src/line/LineService.ts`)

`UrlFetchApp.fetch` is called with `muteHttpExceptions: true`: an HTTP
response of any status is returned normally, and only a transport
failure throws.  One fetch attempt is therefore modelled by a
`FetchResult`; a throwing JS computation is an `Except String`. -/

inductive FetchResult where
  | ok : Nat → String → FetchResult
  | throwErr : String → FetchResult
  deriving Repr

structure LineApiError where
  message : String
  details : Option Json
  deriving Repr

structure LineApiResponse where
  status : Nat
  body : String
  error : Option LineApiError
  deriving Repr

/-- `LineService.buildErrorResponse`: parse the error body as JSON
best-effort.  (A non-string `message` field is not modelled; the sources
never inspect it beyond display.) -/
def buildErrorResponse (statusCode : Nat) (responseBody : String) : LineApiResponse :=
  let error : LineApiError :=
    match parseJson responseBody with
    | some errorData =>
      { message :=
          match jGet errorData "message" with
          | some (.str s) => if s = "" then "Unknown error" else s
          | _ => "Unknown error"
        details := jGet errorData "details" }
    | none =>
      { message := if responseBody = "" then "Unknown error" else responseBody
        details := none }
  { status := statusCode, body := responseBody, error := some error }

/-- `LineService.handleLineResponse`. -/
def handleLineResponse (statusCode : Nat) (responseBody : String) : LineApiResponse :=
  if statusCode = 200 then
    { status := statusCode, body := responseBody, error := none }
  else
    buildErrorResponse statusCode responseBody

/-- `LineService.sendToLineApi`: the request payload goes to the external
`UrlFetchApp.fetch`, whose outcome is the oracle argument; the function
either throws (transport failure) or classifies the HTTP response. -/
def sendToLineApi (fetched : FetchResult) : Except String LineApiResponse :=
  match fetched with
  | .throwErr m => .error m
  | .ok statusCode responseBody => .ok (handleLineResponse statusCode responseBody)

/-- Trace of one `withRetry` call: its result (or rethrown error), the
number of attempts actually made, and the total `Utilities.sleep`
milliseconds forced by backoff. -/
structure RetryTrace where
  result : Except String LineApiResponse
  attemptsMade : Nat
  totalSleepMs : Nat
  deriving Repr

/-- Loop body of `LineService.withRetry` (`for attempt = 0..maxRetries`),
fuelled by the number of attempts still allowed (`maxRetries + 1 -
attempt`).  A successful call returns immediately; a thrown error backs
off `2^attempt` seconds unless this was the last attempt, in which case
the error is rethrown after the loop. -/
def withRetryGo (fn : Nat → Except String LineApiResponse) :
    Nat → Nat → Option String → Nat → RetryTrace
  | 0, attempt, lastError, sleepMs =>
    { result := .error (lastError.getD "Retry failed with unknown error")
      attemptsMade := attempt, totalSleepMs := sleepMs }
  | fuel + 1, attempt, _, sleepMs =>
    match fn attempt with
    | .ok r => { result := .ok r, attemptsMade := attempt + 1, totalSleepMs := sleepMs }
    | .error e =>
      if fuel = 0 then
        { result := .error e, attemptsMade := attempt + 1, totalSleepMs := sleepMs }
      else
        withRetryGo fn fuel (attempt + 1) (some e) (sleepMs + 2 ^ attempt * 1000)

/-- `LineService.withRetry` with the default `maxRetries = 3`. -/
def withRetry (fn : Nat → Except String LineApiResponse) (maxRetries : Nat := 3) :
    RetryTrace :=
  withRetryGo fn (maxRetries + 1) 0 none 0

/-- `LineService.pushMessage`: `attemptFetch i` is the outcome of the HTTP
attempt number `i` (the group id and text only shape the payload handed
to the external fetch). -/
def pushMessage (attemptFetch : Nat → FetchResult) : RetryTrace :=
  withRetry (fun attempt => sendToLineApi (attemptFetch attempt))

example :
    pushMessage (fun _ => .ok 200 "\x7b\x7d") =
      { result := .ok { status := 200, body := "\x7b\x7d", error := none },
        attemptsMade := 1, totalSleepMs := 0 } := by rfl

example :
    pushMessage (fun i => if i < 3 then .throwErr "boom" else .ok 200 "\x7b\x7d") =
      { result := .ok { status := 200, body := "\x7b\x7d", error := none },
        attemptsMade := 4, totalSleepMs := 7000 } := by rfl

example :
    pushMessage (fun _ => .throwErr "down") =
      { result := .error "down", attemptsMade := 4, totalSleepMs := 7000 } := by rfl

/-! ## MessageFormatter (`src/line/LineService.ts`, `MessageFormatter`)

`TodoItem` is the shared item record (`src/email/types.ts`); `priority`
is modelled as an optional string (only `"high"`, `"medium"`, `"low"`
produce icons), `extractedAt` as an integer timestamp. -/

structure TodoItem where
  description : String
  priority : Option String
  sourceEmailId : String
  sourceSender : String
  sourceSubject : String
  extractedAt : Int
  matchedPattern : Option String
  deriving Repr

/-- `MessageFormatter.getPriorityIcon`. -/
def getPriorityIcon (priority : Option String) : String :=
  match priority with
  | some "high" => "🔴 "
  | some "medium" => "🟡 "
  | some "low" => "🟢 "
  | _ => ""

/-- `LINE_CONSTRAINTS.MAX_MESSAGE_LENGTH`. -/
def MAX_MESSAGE_LENGTH : Nat := 5000

/-- The truncation suffix appended by `formatTodosForLine`. -/
def truncationSuffix : String := "\n\n...(truncated)"

/-- The message built by `formatTodosForLine` before the length check:
header, numbered items (`${number}. ${priorityIcon}${description}\n`)
and footer. -/
def renderTodos (todos : List TodoItem) (sender subject : String) : String :=
  let header :=
    "📧 New Todos from Email\n\n" ++
    "From: " ++ sender ++ "\n" ++
    "Subject: " ++ subject ++ "\n" ++
    "\n─────────────────\n\n"
  let items := String.join ((todos.enum).map (fun p =>
    toString (p.1 + 1) ++ ". " ++ getPriorityIcon p.2.priority ++
      p.2.description ++ "\n"))
  let footer :=
    "\n─────────────────\n" ++
    "Total: " ++ toString todos.length ++ " todo" ++
      (if todos.length > 1 then "s" else "")
  header ++ items ++ footer

/-- `MessageFormatter.formatTodosForLine`.  JS `substring(0, n)` is
truncation to the first `n` code points, written through `String.data`
so that list lemmas apply. -/
def formatTodosForLine (todos : List TodoItem) (sender subject : String) : String :=
  if todos.length = 0 then ""
  else
    let message := renderTodos todos sender subject
    if message.length > MAX_MESSAGE_LENGTH then
      String.mk (message.data.take (MAX_MESSAGE_LENGTH - 20)) ++ truncationSuffix
    else
      message

example : truncationSuffix.length = 16 := by rfl

/-! ## GeminiService (embedded in `specs/001-email-line-integration/spec.md`) -/

/-- Structural `startsWith` (JS `String.prototype.startsWith`). -/
def strStartsWith (s pre : String) : Bool :=
  go s.data pre.data
where
  go : List Char → List Char → Bool
    | _, [] => true
    | [], _ :: _ => false
    | a :: as, b :: bs => a = b && go as bs

/-- Structural `endsWith` (JS `String.prototype.endsWith`). -/
def strEndsWith (s suf : String) : Bool :=
  decide (suf.data.length ≤ s.data.length) &&
    decide (s.data.drop (s.data.length - suf.data.length) = suf.data)

/-- `callGeminiAPI`: performs one fetch (oracle argument); throws on a
transport failure, on a non-200 status, and on a response body that is
not valid JSON; returns `'[]'` when the candidate text is absent or
empty (`if (!content)`), otherwise the candidate text.  A candidate
`text` field holding a non-string JSON value is returned as `'[]'` as
well: in the source such a value flows into
`parseTodosFromResponse`, whose `try` block catches the resulting
`TypeError` and yields the same empty extraction. -/
def callGeminiAPI (fetched : FetchResult) : Except String String :=
  match fetched with
  | .throwErr m => .error m
  | .ok statusCode responseBody =>
    if statusCode ≠ 200 then .error ("Gemini API error: " ++ toString statusCode)
    else
      match parseJson responseBody with
      | none => .error "SyntaxError: JSON.parse"
      | some data =>
        let content :=
          (jGet data "candidates").bind (fun c => jIdx c 0) |>.bind
            (fun c => jGet c "content") |>.bind (fun c => jGet c "parts") |>.bind
            (fun p => jIdx p 0) |>.bind (fun p => jGet p "text")
        match content with
        | some (.str s) => if s = "" then .ok "[]" else .ok s
        | _ => .ok "[]"

/-- Strip a leading fence per `replace(/```json\n?/, '')` /
`replace(/```\n?/, '')`: the guard already checked the prefix, so the
first occurrence is the prefix itself. -/
def stripLeadingFence (marker : String) (s : String) : String :=
  let rest := s.data.drop marker.length
  match rest with
  | '\n' :: rest' => String.mk rest'
  | _ => String.mk rest

/-- Strip a trailing fence per `replace(/\n?```$/, '')`. -/
def stripTrailingFence (s : String) : String :=
  if strEndsWith s "```" then
    let l := s.data.take (s.data.length - 3)
    match l.getLast? with
    | some '\n' => String.mk (l.take (l.length - 1))
    | _ => String.mk l
  else s

/-- The string field of an array element, as read by the unchecked cast
`todo.description` (a missing or non-string field is JS `undefined`,
modelled as the empty string — it is never inspected by the sources). -/
def jStrField (j : Json) (k : String) : String :=
  match jGet j k with
  | some (.str s) => s
  | _ => ""

/-- The optional string field read by `todo.priority`. -/
def jStrFieldOpt (j : Json) (k : String) : Option String :=
  match jGet j k with
  | some (.str s) => some s
  | _ => none

/-- The fence-stripping prelude of `parseTodosFromResponse`: trim, then
drop a leading ```` ```json ```` / ```` ``` ```` fence and a trailing
fence. -/
def stripCodeFences (response : String) : String :=
  let jsonStr := jsTrim response
  if strStartsWith jsonStr "```json" then
    stripTrailingFence (stripLeadingFence "```json" jsonStr)
  else if strStartsWith jsonStr "```" then
    stripTrailingFence (stripLeadingFence "```" jsonStr)
  else jsonStr

/-- `GeminiService.parseTodosFromResponse`: strip Markdown code fences,
`JSON.parse` inside a `try` (`none` → caught → `[]`), reject non-arrays,
and map the elements to `TodoItem`s with the caller's identity fields
(`now` is the `new Date()` stamp). -/
def parseTodosFromResponse (response : String)
    (emailId senderEmail emailSubject : String) (now : Int) : List TodoItem :=
  match parseJson (stripCodeFences response) with
  | none => []
  | some (.arr todos) =>
    todos.map (fun todo =>
      { description := jStrField todo "description"
        priority := jStrFieldOpt todo "priority"
        sourceEmailId := emailId
        sourceSender := senderEmail
        sourceSubject := emailSubject
        extractedAt := now
        matchedPattern := some "ai-extracted" })
  | some _ => []

/-- `GeminiService.buildExtractionPrompt` (the prompt is handed to the
external fetch; its text never influences the in-code control flow). -/
def buildExtractionPrompt (emailBody emailSubject : String) : String :=
  "You are a todo extraction assistant. Extract actionable todo items from the following email.\n\nEmail Subject: "
    ++ emailSubject ++ "\n\nEmail Content:\n" ++ emailBody

/-- `GeminiService.extractTodos` (the AI extractor): build the prompt,
call the API and parse the result; errors from `callGeminiAPI`
propagate — there is no `try`/`catch` in `extractTodos`. -/
def geminiExtractTodos (emailBody emailId senderEmail emailSubject : String)
    (fetched : FetchResult) (now : Int) : Except String (List TodoItem) :=
  let _prompt := buildExtractionPrompt emailBody emailSubject
  match callGeminiAPI fetched with
  | .error e => .error e
  | .ok response =>
    .ok (parseTodosFromResponse response emailId senderEmail emailSubject now)

example :
    parseTodosFromResponse "[\x7b\"description\": \"Review\", \"priority\": \"high\"\x7d]"
      "e1" "a@x.com" "subj" 7 =
    [{ description := "Review", priority := some "high", sourceEmailId := "e1",
       sourceSender := "a@x.com", sourceSubject := "subj", extractedAt := 7,
       matchedPattern := some "ai-extracted" }] := by rfl

example : parseTodosFromResponse "not json" "e" "s" "b" 0 = [] := by rfl
example : parseTodosFromResponse "" "e" "s" "b" 0 = [] := by rfl
example : parseTodosFromResponse "\x7b\"description\": \"x\"\x7d" "e" "s" "b" 0 = [] := by rfl
example :
    parseTodosFromResponse "```json\n[]\n```" "e" "s" "b" 0 = [] := by rfl
example :
    geminiExtractTodos "body" "e" "s" "b" (.ok 500 "oops") 0 =
      .error "Gemini API error: 500" := by rfl
example :
    geminiExtractTodos "body" "e" "s" "b"
      (.ok 200 "\x7b\"candidates\":[\x7b\"content\":\x7b\"parts\":[\x7b\"text\":\"[]\"\x7d]\x7d\x7d]\x7d") 0 =
      .ok [] := by rfl

/-! ## EmailParser (`src/email/EmailParser.ts`)

The four extraction regexes run with the `m` flag over the stripped
body; each is anchored `^...$`, so they are applied line by line (lines
split on `'\n'`; a `'\r'` inside a line acts as the `$` boundary, and
`.` does not match it).  Each matcher returns the string whose trimmed
value becomes `description` — `(match[1] || match[2])` in the source:
the first capture for the numbered/bullet/checkbox patterns, and the
matched keyword itself for the action pattern (its first capture is the
keyword, which is always non-empty and therefore always chosen).
A match whose capture could only consist of whitespace is reported as
`none`: the source produces a whitespace capture there, which the
`description && ...` guard then discards — the resulting todo lists are
identical. -/

/-- The capture `(.+)$` after the pattern's required whitespace: drop the
greedy `\s+`/`\s*` run, then take up to the first `'\r'` (a line
terminator for `$`, unmatchable by `.`). -/
def captureRest (l : List Char) : List Char :=
  (l.dropWhile jsWs).takeWhile (fun c => c ≠ '\r')

/-- `^\s*\d+[.)]\s+(.+)$`. -/
def matchNumbered (line : List Char) : Option (List Char) :=
  let l := line.dropWhile jsWs
  let digits := l.takeWhile Char.isDigit
  if digits.isEmpty then none
  else
    match l.dropWhile Char.isDigit with
    | c :: rest =>
      if c = '.' ∨ c = ')' then
        match rest with
        | w :: _ =>
          if jsWs w then
            let cap := captureRest rest
            if cap.isEmpty then none else some cap
          else none
        | [] => none
      else none
    | [] => none

/-- The bullet character class `[-*â€¢]` — the source file contains the
mojibake byte sequence `â€¢` (a UTF-8 `•` decoded as Latin-1), so the
class holds these five characters. -/
def bulletChars : List Char := ['-', '*', 'â', '€', '¢']

/-- `^\s*[-*â€¢]\s+(.+)$`. -/
def matchBullet (line : List Char) : Option (List Char) :=
  match line.dropWhile jsWs with
  | c :: rest =>
    if c ∈ bulletChars then
      match rest with
      | w :: _ =>
        if jsWs w then
          let cap := captureRest rest
          if cap.isEmpty then none else some cap
        else none
      | [] => none
    else none
  | [] => none

/-- `^\s*\[[ x]\]\s+(.+)$`. -/
def matchCheckbox (line : List Char) : Option (List Char) :=
  match line.dropWhile jsWs with
  | '[' :: m :: ']' :: rest =>
    if m = ' ' ∨ m = 'x' then
      match rest with
      | w :: _ =>
        if jsWs w then
          let cap := captureRest rest
          if cap.isEmpty then none else some cap
        else none
      | [] => none
    else none
  | _ => none

/-- Case-insensitive character comparison (ASCII, as in the keywords). -/
def ciEq (a b : Char) : Bool := a.toLower = b.toLower

def ciIsPrefix : List Char → List Char → Bool
  | [], _ => true
  | _ :: _, [] => false
  | a :: as, b :: bs => ciEq a b && ciIsPrefix as bs

/-- The alternatives of the action pattern, in source order. -/
def actionKeywords : List String := ["TODO", "TASK", "Action", "Follow up", "Follow-up"]

/-- `^(TODO|TASK|Action|Follow up|Follow-up):\s*(.+)$` with the `i` flag.
The value returned is `match[1]`: the keyword as it appears in the line.
The regex matches iff the keyword (case-insensitively) is followed by
`':'` and the remainder contains some character other than `'\r'`
(which `\s*(.+)$` can then consume). -/
def matchAction (line : List Char) : Option (List Char) :=
  actionKeywords.firstM (fun kw =>
    if ciIsPrefix kw.data line then
      match line.drop kw.length with
      | ':' :: rest =>
        if rest.any (fun c => c ≠ '\r') then some (line.take kw.length) else none
      | _ => none
    else none)

/-- `EmailParser.stripHtml`: `replace(/<[^>]*>/g, '')` followed by
`trim()`.  A `'<'` is removed together with everything up to the next
`'>'` when one exists; a `'<'` with no closing `'>'` stays. -/
def stripTagsGo : Nat → List Char → List Char
  | _, [] => []
  | 0, l => l
  | fuel + 1, '<' :: rest =>
    let span := rest.takeWhile (fun c => c ≠ '>')
    match rest.drop span.length with
    | '>' :: rem => stripTagsGo fuel rem
    | _ => '<' :: stripTagsGo fuel rest
  | fuel + 1, c :: rest => c :: stripTagsGo fuel rest

def stripTags (l : List Char) : List Char :=
  stripTagsGo l.length l

def stripHtml (html : String) : String :=
  jsTrim (String.mk (stripTags html.data))

/-- `EmailParser.isDuplicate`. -/
def isDuplicate (todos : List TodoItem) (description : String) : Bool :=
  todos.any (fun todo => todo.description = description)

/-- One pattern of the `patterns` table: its matcher and the
`matchedPattern` tag recorded on produced items. -/
def parserPatterns : List ((List Char → Option (List Char)) × String) :=
  [(matchNumbered, "numbered"), (matchBullet, "bullet"),
   (matchAction, "action"), (matchCheckbox, "checkbox")]

/-- The body of the `while` loop for one successful regex match: trim
the captured text and push a todo when the description is non-empty and
not a duplicate. -/
def pushTodo (sourceEmailId sourceSender sourceSubject : String) (now : Int)
    (tag : String) (todos : List TodoItem) (cap : List Char) : List TodoItem :=
  if jsTrim (String.mk cap) ≠ "" ∧ ¬ isDuplicate todos (jsTrim (String.mk cap)) then
    todos ++ [{ description := jsTrim (String.mk cap)
                priority := none
                sourceEmailId := sourceEmailId
                sourceSender := sourceSender
                sourceSubject := sourceSubject
                extractedAt := now
                matchedPattern := some tag }]
  else todos

/-- The `while ((match = pattern.regex.exec(...)))` loop for one pattern:
visit every line in order, handling each match with `pushTodo`. -/
def applyPattern (lines : List (List Char))
    (matcher : List Char → Option (List Char)) (tag : String)
    (sourceEmailId sourceSender sourceSubject : String) (now : Int)
    (todos : List TodoItem) : List TodoItem :=
  lines.foldl (fun todos line =>
    match matcher line with
    | none => todos
    | some cap => pushTodo sourceEmailId sourceSender sourceSubject now tag todos cap)
    todos

/-- `EmailParser.extractTodos` (the pattern extractor): strip HTML, then
apply the four patterns in order over the lines of the text. -/
def parserExtractTodos (emailBody : String)
    (sourceEmailId sourceSender sourceSubject : String) (now : Int) :
    List TodoItem :=
  let plainText := stripHtml emailBody
  let lines := (plainText.data.splitOn '\n')
  parserPatterns.foldl (fun todos p =>
    applyPattern lines p.1 p.2 sourceEmailId sourceSender sourceSubject now todos) []

example :
    (parserExtractTodos "1. Buy milk\n- Call Bob\nTODO: ship it\n[x] done task"
      "id" "a@x.com" "subj" 3).map (fun t => t.description) =
    ["Buy milk", "Call Bob", "TODO", "done task"] := by rfl

example :
    (parserExtractTodos "<p>1. Buy milk</p>" "id" "s" "b" 0).map
      (fun t => t.description) = ["Buy milk"] := by rfl

example : parserExtractTodos "1.   \n-  \nhello" "id" "s" "b" 0 = [] := by rfl

/-! ## EmailService and ConfigService

`GmailApp.search` is external: a run receives the list of threads the
query returned (the query — whitelist / `after:` date / inbox scope —
and the `maxEmailsPerRun` cap are applied by Gmail, not by this code).
`GThread`/`GMessage` model the `ThreadLike` records. -/

structure GMessage where
  id : String
  /-- the `from` header (renamed: `from` is a Lean keyword) -/
  fromAddr : String
  subject : String
  plainBody : String
  htmlBody : String
  date : Int
  deriving Repr

structure GThread where
  id : String
  labels : List String
  messages : List GMessage
  deriving Repr

/-- `EmailMessage` (`src/email/types.ts`). -/
structure EmailMessage where
  id : String
  threadId : String
  /-- the `from` field (renamed: `from` is a Lean keyword) -/
  fromAddr : String
  senderName : Option String
  subject : String
  bodyPlain : String
  bodyHtml : String
  receivedDate : Int
  processed : Bool
  labelIds : List String
  deriving Repr

/-- The record built for one Gmail message inside `fetchNewEmails`. -/
def mkEmailMessage (thread : GThread) (message : GMessage) : EmailMessage :=
  { id := message.id
    threadId := thread.id
    fromAddr := message.fromAddr
    senderName := none
    subject := message.subject
    bodyPlain := message.plainBody
    bodyHtml := message.htmlBody
    receivedDate := message.date
    processed := false
    labelIds := thread.labels }

/-- Shared body of both `fetchNewEmails` variants: walk the returned
threads, walk each thread's messages, and keep those with
`messageDate > lastProcessedTime` (the `messageDate <= lastProcessedTime
→ continue` guard; `lastProcessedTime` may be `NaN`). -/
def fetchLoop (lastProcessedTime : Option Int) (threads : List GThread) :
    List EmailMessage :=
  threads.flatMap (fun thread =>
    thread.messages.filterMap (fun message =>
      if jsLe message.date lastProcessedTime then none
      else some (mkEmailMessage thread message)))

/-- `EmailService.fetchNewEmails` of `src/email/EmailService.ts` (query
has no sender filter; `threads` is what `GmailApp.search` returned). -/
def fetchNewEmailsV1 (lastProcessedTime : Option Int) (threads : List GThread) :
    List EmailMessage :=
  fetchLoop lastProcessedTime threads

/-- `EmailService.fetchNewEmails` of `src/email/EmailParser.ts` (the
whitelist is baked into the Gmail query string; the in-code loop is
identical, so the whitelist never filters individual messages). -/
def fetchNewEmailsV2 (lastProcessedTime : Option Int)
    (_senderWhitelist : List String) (threads : List GThread) :
    List EmailMessage :=
  fetchLoop lastProcessedTime threads

/-- JS `String.prototype.toLowerCase` (ASCII inputs). -/
def strToLower (s : String) : String :=
  String.mk (s.data.map Char.toLower)

/-- First capture of `/<([^>]+)>/`: scan for a `'<'` followed by at
least one non-`'>'` character and then a `'>'`. -/
def firstAngleCapture : List Char → Option (List Char)
  | [] => none
  | '<' :: rest =>
    let span := rest.takeWhile (fun c => c ≠ '>')
    match rest.drop span.length with
    | '>' :: _ => if span.isEmpty then firstAngleCapture rest else some span
    | _ => firstAngleCapture rest
  | _ :: rest => firstAngleCapture rest

/-- `EmailService.filterBySender` (`src/email/EmailService.ts`): extract
the address from `"Name <email>"` when possible, then keep the email if
some whitelist entry matches case-insensitively. -/
def filterBySender (emails : List EmailMessage) (senderWhitelist : List String) :
    List EmailMessage :=
  emails.filter (fun email =>
    let senderEmail :=
      match firstAngleCapture email.fromAddr.data with
      | some inner => String.mk inner
      | none => email.fromAddr
    senderWhitelist.any (fun whitelisted =>
      strToLower whitelisted = strToLower senderEmail))

/-- `AppConfig` (`src/config/types.ts`); the two numeric fields are JS
numbers that can be `NaN`. -/
structure AppConfig where
  lineAccessToken : String
  lineGroupId : String
  geminiApiKey : String
  senderWhitelist : List String
  lastProcessedTime : Option Int
  maxEmailsPerRun : Option Int
  deriving Repr

/-- The Script Properties store (external key-value collaborator);
`getProperty` returns `null` for a missing key. -/
def getProperty (store : List (String × String)) (key : String) : Option String :=
  (store.filter (fun p => p.1 = key)).head?.map Prod.snd

/-- `ConfigService.getConfig`: validate the four required keys (`!x`
rejects both `null` and `""`), split/trim/clean the whitelist, and parse
the optional numeric fields (an empty or missing string selects the
literal default). -/
def getConfig (store : List (String × String)) : Except String AppConfig :=
  let present : Option String → Bool := fun v =>
    match v with
    | some s => s ≠ ""
    | none => false
  let lineAccessToken := getProperty store "lineAccessToken"
  let lineGroupId := getProperty store "lineGroupId"
  let geminiApiKey := getProperty store "geminiApiKey"
  let senderWhitelistStr := getProperty store "senderWhitelist"
  let lastProcessedTimeStr := getProperty store "lastProcessedTime"
  let maxEmailsPerRunStr := getProperty store "maxEmailsPerRun"
  if ¬ present lineAccessToken then
    .error "Configuration error: lineAccessToken not found in Script Properties"
  else if ¬ present lineGroupId then
    .error "Configuration error: lineGroupId not found in Script Properties"
  else if ¬ present geminiApiKey then
    .error "Configuration error: geminiApiKey not found in Script Properties"
  else if ¬ present senderWhitelistStr then
    .error "Configuration error: senderWhitelist not found in Script Properties"
  else
    let senderWhitelist :=
      (((senderWhitelistStr.getD "").data.splitOn ',').map
        (fun l => jsTrim (String.mk l))).filter (fun s => s.length > 0)
    if senderWhitelist.isEmpty then
      .error "Configuration error: senderWhitelist cannot be empty"
    else
      .ok { lineAccessToken := lineAccessToken.getD ""
            lineGroupId := lineGroupId.getD ""
            geminiApiKey := geminiApiKey.getD ""
            senderWhitelist := senderWhitelist
            lastProcessedTime :=
              match lastProcessedTimeStr with
              | some s => if s ≠ "" then jsParseInt s else some 0
              | none => some 0
            maxEmailsPerRun :=
              match maxEmailsPerRunStr with
              | some s => if s ≠ "" then jsParseInt s else some 100
              | none => some 100 }

/-- A well-formed store used in concrete runs. -/
def demoStore : List (String × String) :=
  [("lineAccessToken", "tok"), ("lineGroupId", "G1"),
   ("geminiApiKey", "key"), ("senderWhitelist", "a@x.com"),
   ("lastProcessedTime", "1000")]

example :
    getConfig demoStore =
      .ok { lineAccessToken := "tok", lineGroupId := "G1", geminiApiKey := "key",
            senderWhitelist := ["a@x.com"], lastProcessedTime := some 1000,
            maxEmailsPerRun := some 100 } := by rfl

example : (getConfig []).isOk = false := by rfl

/-! ## Run orchestration

Two orchestrators exist in the repository:

* orchestrator **A** — the `processEmails` appended to
  `src/email/EmailService.ts`: Gemini extraction, per-message watermark
  updates, run-summary dispatches;
* orchestrator **B** — `src/main.ts`, the webpack entry
  (`entry: './src/main.ts'`): pattern extraction, a single end-of-run
  watermark write, no summaries.

External collaborators are an `Env` of oracles; side effects accumulate
in an `St` trace.  `new Date().getTime()` readings consume `clock`
indices in call order; `clock 0` is always `startTime`. -/

/-- `MAX_EXECUTION_TIME_MS = 6 * 60 * 1000`. -/
def MAX_EXECUTION_TIME_MS : Int := 6 * 60 * 1000

inductive RunStatus where
  | success : RunStatus
  | error : RunStatus
  deriving Repr, DecidableEq

/-- The arguments of one `sendRunSummary` call. -/
structure SummaryRec where
  emailsFound : Nat
  todosExtracted : Nat
  executionTimeSec : String
  status : RunStatus
  errorMsg : Option String
  deriving Repr, DecidableEq

structure Env where
  /-- successive `new Date().getTime()` readings -/
  clock : Nat → Int
  /-- `new Date().toLocaleString('en-US', { timeZone: 'Asia/Tokyo' })` -/
  tsString : String
  /-- outcome of `GmailApp.search` (the query and cap are applied by Gmail) -/
  search : Except String (List GThread)
  /-- outcome of the `n`-th Gemini fetch -/
  gemini : Nat → FetchResult
  /-- outcome of attempt `j` of the `n`-th `pushMessage` call -/
  lineFetch : Nat → Nat → FetchResult
  /-- `new Date()` stamp used for the `n`-th extraction's items -/
  itemNow : Nat → Int

structure St where
  clockIdx : Nat := 0
  extractIdx : Nat := 0
  pushIdx : Nat := 0
  /-- ids of the emails entered into `processEmail`, in order -/
  visited : List String := []
  /-- `configService.updateLastProcessedTime` arguments, in order -/
  writes : List Int := []
  /-- `pushMessage` calls: group id, text, and result -/
  pushes : List (String × String × Except String LineApiResponse) := []
  /-- `sendRunSummary` calls -/
  summaries : List SummaryRec := []
  deriving Repr

def readClock (env : Env) (st : St) : Int × St :=
  (env.clock st.clockIdx, { st with clockIdx := st.clockIdx + 1 })

/-- One `lineService.pushMessage(groupId, text)` call. -/
def doPush (env : Env) (st : St) (groupId text : String) :
    Except String LineApiResponse × St :=
  let trace := pushMessage (env.lineFetch st.pushIdx)
  (trace.result,
   { st with pushIdx := st.pushIdx + 1
             pushes := st.pushes ++ [(groupId, text, trace.result)] })

/-- One `configService.updateLastProcessedTime(t)` call; the stored
watermark after the run is the last write (or the initial value if no
write happened). -/
def doWrite (st : St) (t : Int) : St :=
  { st with writes := st.writes ++ [t] }

/-- `(ms / 1000).toFixed(2)` for an integer millisecond count
(round-half-up at the hundredth; only displayed, never branched on). -/
def msToFixed2 (ms : Int) : String :=
  let h : Int := (ms + 5) / 10
  let r : Nat := (h % 100).toNat
  toString (h / 100) ++ "." ++ (if r < 10 then "0" else "") ++ toString r

/-- The text built by `sendRunSummary`. -/
def summaryText (tsString : String) (emailsFound todosExtracted : Nat)
    (executionTimeSec : String) (status : RunStatus) (errorMsg : Option String) :
    String :=
  (if status = .success then "✅" else "❌") ++ " Email Monitor Run Summary\n\n" ++
  "Time: " ++ tsString ++ "\n" ++
  "Emails Found: " ++ toString emailsFound ++ "\n" ++
  "Todos Extracted: " ++ toString todosExtracted ++ "\n" ++
  "Execution Time: " ++ executionTimeSec ++ "s\n" ++
  "Status: " ++ (if status = .success then "Completed" else "Failed") ++
  (match errorMsg with
   | some m => "\n\nError: " ++ m
   | none => "")

/-- `sendRunSummary` (orchestrator A): build the text and push it; the
surrounding `try`/`catch` swallows a `pushMessage` throw, so this never
raises. -/
def sendRunSummaryA (env : Env) (st : St) (config : AppConfig)
    (emailsFound todosExtracted : Nat) (executionTimeSec : String)
    (status : RunStatus) (errorMsg : Option String) : St :=
  let st :=
    { st with summaries := st.summaries ++
        [{ emailsFound := emailsFound, todosExtracted := todosExtracted,
           executionTimeSec := executionTimeSec, status := status,
           errorMsg := errorMsg }] }
  let (_response, st) :=
    doPush env st config.lineGroupId
      (summaryText env.tsString emailsFound todosExtracted executionTimeSec
        status errorMsg)
  st

/-- `processEmail` of orchestrator A: extract with Gemini (a throw
propagates), then — depending on the branch — format, push, and in
every non-throwing branch advance the watermark to this email's
`receivedDate`. -/
def processEmailA (env : Env) (config : AppConfig) (st : St)
    (email : EmailMessage) : Except String Nat × St :=
  let st := { st with visited := st.visited ++ [email.id] }
  let fetched := env.gemini st.extractIdx
  let now := env.itemNow st.extractIdx
  let st := { st with extractIdx := st.extractIdx + 1 }
  let body := if email.bodyHtml ≠ "" then email.bodyHtml else email.bodyPlain
  match geminiExtractTodos body email.id email.fromAddr email.subject fetched now with
  | .error e => (.error e, st)
  | .ok todos =>
    if todos.length = 0 then
      (.ok 0, doWrite st email.receivedDate)
    else
      let message := formatTodosForLine todos email.fromAddr email.subject
      if message = "" then
        (.ok 0, doWrite st email.receivedDate)
      else
        let (response, st) := doPush env st config.lineGroupId message
        match response with
        | .error e => (.error e, st)
        | .ok _r => (.ok todos.length, doWrite st email.receivedDate)

/-- `processFilteredEmails` of orchestrator A: per email, check the
wall-clock budget (`break` keeps the count so far), then process; a
thrown error propagates with the trace so far. -/
def processFilteredEmailsA (env : Env) (config : AppConfig) (startTime : Int) :
    List EmailMessage → St → Nat → Except String Nat × St
  | [], st, acc => (.ok acc, st)
  | email :: rest, st, acc =>
    let (t, st) := readClock env st
    if t - startTime > MAX_EXECUTION_TIME_MS then (.ok acc, st)
    else
      match processEmailA env config st email with
      | (.error e, st) => (.error e, st)
      | (.ok n, st) => processFilteredEmailsA env config startTime rest st (acc + n)

/-- The `try` block body of `processEmails` (orchestrator A), after the
fetch: the zero-email path, the normal path, and the `catch` path each
end in exactly one `sendRunSummary` call. -/
def runBodyA (env : Env) (config : AppConfig) (startTime : Int)
    (emails : List EmailMessage) (st : St) : Except String Unit × St :=
  if emails.length = 0 then
    let (tEnd, st) := readClock env st
    let st := sendRunSummaryA env st config 0 0
      (msToFixed2 (tEnd - startTime)) .success none
    (.ok (), st)
  else
    match processFilteredEmailsA env config startTime emails st 0 with
    | (.ok total, st) =>
      let (tEnd, st) := readClock env st
      let st := sendRunSummaryA env st config emails.length total
        (msToFixed2 (tEnd - startTime)) .success none
      (.ok (), st)
    | (.error e, st) =>
      let (_tErr, st) := readClock env st
      let st := sendRunSummaryA env st config 0 0 "0.00" .error (some e)
      (.error e, st)

/-- `processEmails` of orchestrator A.  Config loading, service
construction and the mailbox fetch happen *before* the `try` block, so
their throws propagate without any summary dispatch; inside the `try`
(`runBodyA`), every path dispatches exactly one run summary. -/
def processEmailsA (env : Env) (store : List (String × String)) :
    Except String Unit × St :=
  let st : St := {}
  let (startTime, st) := readClock env st
  match getConfig store with
  | .error e => (.error e, st)
  | .ok config =>
    match env.search with
    | .error e => (.error e, st)
    | .ok threads =>
      let fetched :=
        fetchNewEmailsV2 config.lastProcessedTime config.senderWhitelist threads
      let (t1, st) := readClock env st
      let emails := if t1 - startTime > MAX_EXECUTION_TIME_MS then [] else fetched
      runBodyA env config startTime emails st

/-- `processEmail` of orchestrator B (`src/main.ts`): pattern extraction
(never throws); **no** watermark update in any branch. -/
def processEmailB (env : Env) (config : AppConfig) (st : St)
    (email : EmailMessage) : Except String Nat × St :=
  let st := { st with visited := st.visited ++ [email.id] }
  let now := env.itemNow st.extractIdx
  let st := { st with extractIdx := st.extractIdx + 1 }
  let body := if email.bodyHtml ≠ "" then email.bodyHtml else email.bodyPlain
  let todos := parserExtractTodos body email.id email.fromAddr email.subject now
  if todos.length = 0 then (.ok 0, st)
  else
    let message := formatTodosForLine todos email.fromAddr email.subject
    if message = "" then (.ok 0, st)
    else
      let (response, st) := doPush env st config.lineGroupId message
      match response with
      | .error e => (.error e, st)
      | .ok _r => (.ok todos.length, st)

/-- `processFilteredEmails` of orchestrator B. -/
def processFilteredEmailsB (env : Env) (config : AppConfig) (startTime : Int) :
    List EmailMessage → St → Nat → Except String Nat × St
  | [], st, acc => (.ok acc, st)
  | email :: rest, st, acc =>
    let (t, st) := readClock env st
    if t - startTime > MAX_EXECUTION_TIME_MS then (.ok acc, st)
    else
      match processEmailB env config st email with
      | (.error e, st) => (.error e, st)
      | (.ok n, st) => processFilteredEmailsB env config startTime rest st (acc + n)

/-- `processEmails` of orchestrator B (`src/main.ts`): fetch and filter;
with no whitelisted emails, write the *current* wall clock as the
watermark and return; otherwise process and write the wall clock
captured after the loop.  The `catch` only logs and rethrows. -/
def processEmailsB (env : Env) (store : List (String × String)) :
    Except String Unit × St :=
  let st : St := {}
  let (startTime, st) := readClock env st
  match getConfig store with
  | .error e => (.error e, st)
  | .ok config =>
    match env.search with
    | .error e => (.error e, st)
    | .ok threads =>
      let allEmails := fetchNewEmailsV1 config.lastProcessedTime threads
      let (t1, st) := readClock env st
      let filteredEmails :=
        if t1 - startTime > MAX_EXECUTION_TIME_MS then []
        else filterBySender allEmails config.senderWhitelist
      if filteredEmails.length = 0 then
        let (tNow, st) := readClock env st
        (.ok (), doWrite st tNow)
      else
        match processFilteredEmailsB env config startTime filteredEmails st 0 with
        | (.error e, st) => (.error e, st)
        | (.ok _total, st) =>
          let (tEnd, st) := readClock env st
          (.ok (), doWrite st tEnd)

/-! ## Concrete worlds used by counterexamples and witnesses -/

/-- A Gemini response body whose candidate text is
`[{"description":"do it"}]`. -/
def geminiTodoBody : String :=
  "\x7b\"candidates\":[\x7b\"content\":\x7b\"parts\":[\x7b\"text\":\"[\x7b\\\"description\\\":\\\"do it\\\"\x7d]\"\x7d]\x7d\x7d]\x7d"

example :
    callGeminiAPI (.ok 200 geminiTodoBody) = .ok "[\x7b\"description\":\"do it\"\x7d]" := by rfl

/-- A Gemini response body with no candidates (`extractTodos` yields no
todos). -/
def geminiEmptyBody : String := "\x7b\x7d"

/-- Is an optional JSON value a JSON array? -/
def isArrOpt : Option Json → Bool
  | some (.arr _) => true
  | _ => false


/-- Projection used in statements: the HTTP status of a returned
response (`none` when the call threw). -/
def resultStatus : Except String LineApiResponse → Option Nat
  | .ok resp => some resp.status
  | .error _ => none

/-- The attempt oracle of the C1 scenario: three 429 responses, then a
200. -/
def env429 : Nat → FetchResult := fun i =>
  if i < 3 then .ok 429 "\x7b\x7d" else .ok 200 "\x7b\x7d"

/-- The todo extracted from `"1. Buy milk"` by the pattern extractor. -/
def milkItem : TodoItem :=
  { description := "Buy milk", priority := none, sourceEmailId := "id",
    sourceSender := "s", sourceSubject := "b", extractedAt := 0,
    matchedPattern := some "numbered" }

/-- The formatter as the spec sentence describes it
(modelled from the spec for the refinement comparison of C7): truncation
to `limit - (length of the truncation suffix)` before appending the
suffix. -/
def formatTodosSpecStyle (todos : List TodoItem) (sender subject : String) : String :=
  if todos.length = 0 then ""
  else
    let message := renderTodos todos sender subject
    if message.length > MAX_MESSAGE_LENGTH then
      String.mk (message.data.take (MAX_MESSAGE_LENGTH - truncationSuffix.length)) ++
        truncationSuffix
    else
      message

/-- A todo whose description makes the rendering exceed the LINE limit. -/
def bigTodo : TodoItem :=
  { description := String.mk (List.replicate 6000 'a'), priority := none,
    sourceEmailId := "id", sourceSender := "s", sourceSubject := "b",
    extractedAt := 0, matchedPattern := none }

/-- Messages and threads used by concrete runs: two whitelisted senders'
messages at 3000 and 2000 in separate threads (Gmail returns the newer
thread first), and a non-whitelisted reply at 2500 sharing the second
thread. -/
def msg3000 : GMessage :=
  { id := "m1", fromAddr := "a@x.com", subject := "s1",
    plainBody := "1. task one", htmlBody := "", date := 3000 }

def msg2000 : GMessage :=
  { id := "m2", fromAddr := "a@x.com", subject := "s2",
    plainBody := "1. task two", htmlBody := "", date := 2000 }

def msg2500 : GMessage :=
  { id := "m3", fromAddr := "b@x.com", subject := "s3",
    plainBody := "no todos here", htmlBody := "", date := 2500 }

def demoThreads : List GThread :=
  [{ id := "t1", labels := [], messages := [msg3000] },
   { id := "t2", labels := [], messages := [msg2000, msg2500] }]

/-- Environment of the C2 counterexample: every LINE attempt throws a
transport error; Gemini extracts one todo per email. -/
def envC2 : Env :=
  { clock := fun _ => 0, tsString := "ts",
    search := .ok [{ id := "t1", labels := [], messages := [msg2000] },
                   { id := "t2", labels := [], messages := [msg3000] }],
    gemini := fun _ => .ok 200 geminiTodoBody,
    lineFetch := fun _ _ => .throwErr "net down",
    itemNow := fun _ => 0 }

/-- Environment of the C4 counterexample: messages arrive out of
ascending order (thread `t1` first, carrying the newest message); Gemini
finds nothing, pushes all succeed. -/
def envC4 : Env :=
  { clock := fun _ => 0, tsString := "ts",
    search := .ok [{ id := "t1", labels := [], messages := [msg3000] },
                   { id := "t2", labels := [], messages := [msg2000] }],
    gemini := fun _ => .ok 200 geminiEmptyBody,
    lineFetch := fun _ _ => .ok 200 "\x7b\x7d",
    itemNow := fun _ => 0 }

/-- Environment of the C8 counterexample: the mailbox fetch throws. -/
def envC8 : Env :=
  { clock := fun _ => 0, tsString := "ts",
    search := .error "Gmail down",
    gemini := fun _ => .ok 200 geminiEmptyBody,
    lineFetch := fun _ _ => .ok 200 "\x7b\x7d",
    itemNow := fun _ => 0 }

/-- A benign environment with an empty mailbox. -/
def quietEnv : Env :=
  { clock := fun _ => 0, tsString := "ts",
    search := .ok [],
    gemini := fun _ => .ok 200 geminiEmptyBody,
    lineFetch := fun _ _ => .ok 200 "\x7b\x7d",
    itemNow := fun _ => 0 }

/-- A benign environment whose mailbox returns one whitelisted message
(no todos in it). -/
def envOneEmail : Env :=
  { clock := fun _ => 0, tsString := "ts",
    search := .ok [{ id := "t9", labels := [], messages := [msg2500] }],
    gemini := fun _ => .ok 200 geminiEmptyBody,
    lineFetch := fun _ _ => .ok 200 "\x7b\x7d",
    itemNow := fun _ => 0 }

/-- Store whose whitelist covers `b@x.com` (for orchestrator-B
witnesses). -/
def demoStoreB : List (String × String) :=
  [("lineAccessToken", "tok"), ("lineGroupId", "G1"),
   ("geminiApiKey", "key"), ("senderWhitelist", "b@x.com"),
   ("lastProcessedTime", "1000")]

/-! ## Supporting lemmas -/

theorem dropWhile_head_false (p : Char → Bool) :
    ∀ (l : List Char) (y : Char) (ys : List Char),
      l.dropWhile p = y :: ys → p y = false := by
  intro l
  induction l with
  | nil => intro y ys h; simp [List.dropWhile] at h
  | cons a t ih =>
    intro y ys h
    by_cases hpa : p a
    · exact ih y ys (by simpa [List.dropWhile, hpa] using h)
    · have : a :: t = y :: ys := by simpa [List.dropWhile, hpa] using h
      cases this
      exact Bool.of_not_eq_true hpa

/-- A non-empty trim result contains a character that is not whitespace
(so a trimmed, non-empty description is never whitespace-only). -/
theorem jsTrim_not_all_ws (s : String) (h : jsTrim s ≠ "") :
    (jsTrim s).data.all jsWs = false := by
  have hdata : (jsTrim s).data = jsTrimL s.data := rfl
  rcases hd : ((s.data.dropWhile jsWs).reverse.dropWhile jsWs) with _ | ⟨y, ys⟩
  · exfalso
    apply h
    have : jsTrimL s.data = [] := by simp [jsTrimL, hd]
    simp [jsTrim, this]
  · have hy : jsWs y = false := dropWhile_head_false jsWs _ y ys hd
    have hmem : (jsTrim s).data = (y :: ys).reverse := by
      rw [hdata]; simp [jsTrimL, hd]
    rw [hmem]
    by_contra hall
    have hall' : ((y :: ys).reverse).all jsWs = true := eq_true_of_ne_false hall
    have hyy := List.all_eq_true.mp hall' y (by simp)
    rw [hy] at hyy
    cases hyy

/-- Every todo pushed by `pushTodo` has a description with a
non-whitespace character; accumulator entries are preserved. -/
theorem pushTodo_all_not_ws (sid ssn ssub : String) (now : Int) (tag : String)
    (todos : List TodoItem) (cap : List Char)
    (h : ∀ t ∈ todos, t.description.data.all jsWs = false) :
    ∀ u ∈ pushTodo sid ssn ssub now tag todos cap,
      u.description.data.all jsWs = false := by
  intro u hu
  unfold pushTodo at hu
  split at hu
  · rename_i hg
    rcases List.mem_append.mp hu with hin | hnew
    · exact h u hin
    · have hu' : u =
          { description := jsTrim (String.mk cap)
            priority := none
            sourceEmailId := sid
            sourceSender := ssn
            sourceSubject := ssub
            extractedAt := now
            matchedPattern := some tag } := by
        simpa using hnew
      rw [hu']
      exact jsTrim_not_all_ws _ hg.1
  · exact h u hu

/-- The invariant extends through `applyPattern` (one pattern over all
lines). -/
theorem applyPattern_all_not_ws
    (matcher : List Char → Option (List Char)) (tag sid ssn ssub : String)
    (now : Int) :
    ∀ (lines : List (List Char)) (todos : List TodoItem),
      (∀ t ∈ todos, t.description.data.all jsWs = false) →
      ∀ t ∈ applyPattern lines matcher tag sid ssn ssub now todos,
        t.description.data.all jsWs = false := by
  intro lines
  induction lines with
  | nil =>
    intro todos h t ht
    exact h t (by simpa [applyPattern] using ht)
  | cons line rest ih =>
    intro todos h t ht
    simp only [applyPattern, List.foldl_cons] at ht
    refine ih _ ?_ t (by simpa [applyPattern] using ht)
    intro u hu
    rcases hm : matcher line with _ | cap
    · rw [hm] at hu
      exact h u hu
    · rw [hm] at hu
      exact pushTodo_all_not_ws sid ssn ssub now tag todos cap h u hu

/-- The parsed `demoStore` configuration. -/
def demoConfig : AppConfig :=
  { lineAccessToken := "tok", lineGroupId := "G1", geminiApiKey := "key",
    senderWhitelist := ["a@x.com"], lastProcessedTime := some 1000,
    maxEmailsPerRun := some 100 }

/-- A concrete fetched email record. -/
def demoEmail : EmailMessage :=
  mkEmailMessage { id := "t1", labels := [], messages := [msg3000] } msg3000

/-! ## Claim C1 -/

/-- C1, counterexample.  The claim predicts that a push whose first
three HTTP attempts return 429 and whose fourth returns 200 succeeds
after 4 attempts with 7 seconds of forced backoff.  In the source,
`UrlFetchApp.fetch` is called with `muteHttpExceptions: true`, so a 429
response returns normally from `sendToLineApi` and `withRetry` never
sees an exception: the call ends after one attempt, with the 429
response and no sleep. -/
theorem C1_counterexample :
    pushMessage env429 =
      { result := .ok (buildErrorResponse 429 "\x7b\x7d"), attemptsMade := 1,
        totalSleepMs := 0 } ∧
    (pushMessage env429).attemptsMade ≠ 4 ∧
    (pushMessage env429).totalSleepMs ≠ 7000 ∧
    resultStatus (pushMessage env429).result = some 429 := by
  refine ⟨rfl, ?_, ?_, rfl⟩
  · intro h
    have h1 : (pushMessage env429).attemptsMade = 1 := rfl
    rw [h1] at h
    cases h
  · intro h
    have h1 : (pushMessage env429).totalSleepMs = 0 := rfl
    rw [h1] at h
    cases h

/-- C1, amended.  Retries happen only when an attempt throws a
transport exception; any HTTP response — 429 and 5xx included — ends
the call immediately with one attempt and no sleep.  When the first
three attempts throw and the fourth yields a response, the call makes
4 attempts with 1+2+4 seconds of backoff. -/
theorem C1_retry_only_on_transport_errors :
    (∀ (oracle : Nat → FetchResult) (s : Nat) (b : String),
      oracle 0 = .ok s b →
      pushMessage oracle =
        { result := .ok (handleLineResponse s b), attemptsMade := 1,
          totalSleepMs := 0 }) ∧
    (∀ (oracle : Nat → FetchResult) (m0 m1 m2 : String) (s : Nat) (b : String),
      oracle 0 = .throwErr m0 → oracle 1 = .throwErr m1 →
      oracle 2 = .throwErr m2 → oracle 3 = .ok s b →
      pushMessage oracle =
        { result := .ok (handleLineResponse s b), attemptsMade := 4,
          totalSleepMs := 7000 }) := by
  constructor
  · intro oracle s b h0
    simp [pushMessage, withRetry, withRetryGo, sendToLineApi, h0]
  · intro oracle m0 m1 m2 s b h0 h1 h2 h3
    simp [pushMessage, withRetry, withRetryGo, sendToLineApi, h0, h1, h2, h3]

/-- C1, witness for the amended theorem. -/
theorem C1_witness :
    pushMessage (fun _ => .ok 200 "x") =
      { result := .ok (handleLineResponse 200 "x"), attemptsMade := 1,
        totalSleepMs := 0 } ∧
    pushMessage (fun i => if i < 3 then .throwErr "t" else .ok 200 "x") =
      { result := .ok (handleLineResponse 200 "x"), attemptsMade := 4,
        totalSleepMs := 7000 } :=
  ⟨C1_retry_only_on_transport_errors.1 _ 200 "x" rfl,
   C1_retry_only_on_transport_errors.2 _ "t" "t" "t" 200 "x" rfl rfl rfl rfl⟩

/-! ## Claim C3 -/

/-- C3, counterexample.  The claim says `extract` terminates normally
and returns `[]` on any upstream failure, including a non-200 HTTP
status and a transport exception.  In the source, `callGeminiAPI`
throws `Gemini API error: <status>` on a non-200 status and lets a
transport exception propagate, and `extractTodos` has no `try`/`catch`:
both failures raise out of the extractor instead of yielding `[]`. -/
theorem C3_counterexample :
    geminiExtractTodos "body" "e" "s" "b" (.ok 500 "oops") 0 =
      .error "Gemini API error: 500" ∧
    geminiExtractTodos "body" "e" "s" "b" (.throwErr "netfail") 0 =
      .error "netfail" := ⟨rfl, rfl⟩

/-- C3, amended.  `extract` returns `[]` whenever the candidate payload
does not parse to a JSON array (non-JSON text, a JSON object, the empty
string) — that failure is caught; but it raises on a transport
exception, on a non-200 status, and on a response body that is not
valid JSON. -/
theorem C3_extract_failure_behaviour :
    (∀ (response emailId senderEmail emailSubject : String) (now : Int),
      isArrOpt (parseJson (stripCodeFences response)) = false →
      parseTodosFromResponse response emailId senderEmail emailSubject now = []) ∧
    (∀ (body emailId senderEmail emailSubject : String) (now : Int) (m : String),
      geminiExtractTodos body emailId senderEmail emailSubject (.throwErr m) now =
        .error m) ∧
    (∀ (body emailId senderEmail emailSubject : String) (now : Int)
        (status : Nat) (rbody : String), status ≠ 200 →
      geminiExtractTodos body emailId senderEmail emailSubject (.ok status rbody) now =
        .error ("Gemini API error: " ++ toString status)) ∧
    (∀ (body emailId senderEmail emailSubject : String) (now : Int) (rbody : String),
      parseJson rbody = none →
      geminiExtractTodos body emailId senderEmail emailSubject (.ok 200 rbody) now =
        .error "SyntaxError: JSON.parse") := by
  refine ⟨?_, ?_, ?_, ?_⟩
  · intro response emailId senderEmail emailSubject now h
    unfold parseTodosFromResponse
    rcases hp : parseJson (stripCodeFences response) with _ | j
    · rfl
    · rw [hp] at h
      cases j <;> first | rfl | (exfalso; simp [isArrOpt] at h)
  · intro body emailId senderEmail emailSubject now m
    rfl
  · intro body emailId senderEmail emailSubject now status rbody h
    simp [geminiExtractTodos, callGeminiAPI, h]
  · intro body emailId senderEmail emailSubject now rbody h
    simp [geminiExtractTodos, callGeminiAPI, h]

/-- C3, witness for the amended theorem: a non-JSON candidate, a JSON
object candidate and the empty candidate all give `[]`; a thrown fetch,
a 500 status and an invalid response body all raise. -/
theorem C3_witness :
    parseTodosFromResponse "not json" "e" "s" "b" 0 = [] ∧
    parseTodosFromResponse "\x7b\"a\":1\x7d" "e" "s" "b" 0 = [] ∧
    parseTodosFromResponse "" "e" "s" "b" 0 = [] ∧
    geminiExtractTodos "body" "e" "s" "b" (.throwErr "boom") 0 = .error "boom" ∧
    geminiExtractTodos "body" "e" "s" "b" (.ok 500 "x") 0 =
      .error ("Gemini API error: " ++ toString 500) ∧
    geminiExtractTodos "body" "e" "s" "b" (.ok 200 "not json") 0 =
      .error "SyntaxError: JSON.parse" :=
  ⟨C3_extract_failure_behaviour.1 "not json" "e" "s" "b" 0 rfl,
   C3_extract_failure_behaviour.1 "\x7b\"a\":1\x7d" "e" "s" "b" 0 rfl,
   C3_extract_failure_behaviour.1 "" "e" "s" "b" 0 rfl,
   C3_extract_failure_behaviour.2.1 "body" "e" "s" "b" 0 "boom",
   C3_extract_failure_behaviour.2.2.1 "body" "e" "s" "b" 0 500 "x" (by decide),
   C3_extract_failure_behaviour.2.2.2 "body" "e" "s" "b" 0 "not json" rfl⟩

/-! ## Claim C9 -/

/-- C9, counterexample.  The claim says no extractor ever produces an
item with an empty description.  `parseTodosFromResponse` copies
`todo.description` without any check, so an upstream array element with
an empty description yields an `ExtractedItem` with an empty
description. -/
theorem C9_counterexample :
    (parseTodosFromResponse "[\x7b\"description\":\"\"\x7d]" "e" "s" "b" 0).map
        (fun t => t.description) = [""] := by rfl

/-- C9, amended.  The pattern-based extractor guarantees the invariant:
every produced item has a description that is neither empty nor
whitespace-only (`data.all jsWs = false` implies both, since `all` on
the empty list is `true`).  The AI-based extractor does not (see the
counterexample). -/
theorem C9_pattern_extractor_invariant
    (body sourceEmailId sourceSender sourceSubject : String) (now : Int) :
    ∀ t ∈ parserExtractTodos body sourceEmailId sourceSender sourceSubject now,
      t.description ≠ "" ∧ t.description.data.all jsWs = false := by
  intro t ht
  have hws : t.description.data.all jsWs = false := by
    simp only [parserExtractTodos, parserPatterns, List.foldl_cons, List.foldl_nil] at ht
    exact applyPattern_all_not_ws _ _ _ _ _ _ _ _
      (applyPattern_all_not_ws _ _ _ _ _ _ _ _
        (applyPattern_all_not_ws _ _ _ _ _ _ _ _
          (applyPattern_all_not_ws _ _ _ _ _ _ _ _
            (fun u hu => absurd hu (List.not_mem_nil u)))))
      t ht
  exact ⟨fun hemp => by simp [hemp] at hws, hws⟩

/-- C9, witness for the amended theorem, at the todo extracted from
`"1. Buy milk"`. -/
theorem C9_witness :
    milkItem ∈ parserExtractTodos "1. Buy milk" "id" "s" "b" 0 ∧
    milkItem.description ≠ "" ∧
    milkItem.description.data.all jsWs = false := by
  have hmem : milkItem ∈ parserExtractTodos "1. Buy milk" "id" "s" "b" 0 := by
    rw [show parserExtractTodos "1. Buy milk" "id" "s" "b" 0 = [milkItem] from rfl]
    exact List.mem_singleton_self _
  exact ⟨hmem, C9_pattern_extractor_invariant "1. Buy milk" "id" "s" "b" 0 milkItem hmem⟩

/-! ## Claim C7 -/

/-- Rendering a single todo without priority: the fixed parts of header,
item line and footer total 99 characters. -/
theorem renderTodos_single_len (td : TodoItem) (h : td.priority = none) :
    (renderTodos [td] "s" "t").length = 99 + td.description.length := by
  have hsplit : renderTodos [td] "s" "t" =
      ("📧 New Todos from Email\n\n" ++ "From: " ++ "s" ++ "\n" ++
        "Subject: " ++ "t" ++ "\n" ++ "\n─────────────────\n\n") ++
      ("" ++ (toString (0 + 1) ++ ". " ++ getPriorityIcon td.priority ++
        td.description ++ "\n")) ++
      ("\n─────────────────\n" ++ "Total: " ++ toString (1 : Nat) ++
        " todo" ++ (if (1 : Nat) > 1 then "s" else "")) := by
    rfl
  rw [hsplit, h]
  simp only [String.length_append, getPriorityIcon]
  have e1 : ("📧 New Todos from Email\n\n" : String).length = 24 := rfl
  have e2 : ("From: " : String).length = 6 := rfl
  have e3 : ("s" : String).length = 1 := rfl
  have e4 : ("\n" : String).length = 1 := rfl
  have e5 : ("Subject: " : String).length = 9 := rfl
  have e6 : ("t" : String).length = 1 := rfl
  have e7 : ("\n─────────────────\n\n" : String).length = 20 := rfl
  have e8 : ("" : String).length = 0 := rfl
  have e9 : (toString (0 + 1) : String).length = 1 := rfl
  have e10 : (". " : String).length = 2 := rfl
  have e11 : ("\n─────────────────\n" : String).length = 19 := rfl
  have e12 : ("Total: " : String).length = 7 := rfl
  have e13 : (toString (1 : Nat) : String).length = 1 := rfl
  have e14 : (" todo" : String).length = 5 := rfl
  have e15 : (if (1 : Nat) > 1 then "s" else "").length = 0 := rfl
  omega

/-- When the rendering exceeds the limit, `formatTodosForLine` truncates
to `limit - 20` characters and appends the suffix. -/
theorem formatTodos_truncates (todos : List TodoItem) (sender subject : String)
    (hn : todos.length ≠ 0)
    (hlen : (renderTodos todos sender subject).length > MAX_MESSAGE_LENGTH) :
    formatTodosForLine todos sender subject =
      String.mk ((renderTodos todos sender subject).data.take
        (MAX_MESSAGE_LENGTH - 20)) ++ truncationSuffix := by
  unfold formatTodosForLine
  rw [if_neg hn, if_pos hlen]

/-- The spec-style formatter truncates to `limit - 16` instead. -/
theorem formatTodosSpec_truncates (todos : List TodoItem) (sender subject : String)
    (hn : todos.length ≠ 0)
    (hlen : (renderTodos todos sender subject).length > MAX_MESSAGE_LENGTH) :
    formatTodosSpecStyle todos sender subject =
      String.mk ((renderTodos todos sender subject).data.take
        (MAX_MESSAGE_LENGTH - truncationSuffix.length)) ++ truncationSuffix := by
  unfold formatTodosSpecStyle
  rw [if_neg hn, if_pos hlen]

theorem renderTodos_big_len : (renderTodos [bigTodo] "s" "t").length = 6099 := by
  rw [renderTodos_single_len bigTodo rfl]
  have : bigTodo.description.length = 6000 := by
    show (String.mk (List.replicate 6000 'a')).length = 6000
    show (List.replicate 6000 'a').length = 6000
    rw [List.length_replicate]
  omega

/-- C7, counterexample.  The claim says an over-limit rendering is
truncated to `limit - (length of the truncation suffix)`.  The suffix
`"\n\n...(truncated)"` is 16 characters, but the source truncates to
`limit - 20`, so the output is 4996 characters where the claim's
formula would give 5000 — the two disagree on a concrete over-limit
input. -/
theorem C7_counterexample :
    (formatTodosForLine [bigTodo] "s" "t").length = 4996 ∧
    (formatTodosSpecStyle [bigTodo] "s" "t").length = 5000 ∧
    formatTodosForLine [bigTodo] "s" "t" ≠ formatTodosSpecStyle [bigTodo] "s" "t" := by
  have hdata : (renderTodos [bigTodo] "s" "t").data.length = 6099 := renderTodos_big_len
  have hgt : (renderTodos [bigTodo] "s" "t").length > MAX_MESSAGE_LENGTH := by
    rw [renderTodos_big_len]; decide
  have hmk : ∀ l : List Char, (String.mk l).length = l.length := fun _ => rfl
  have h1 : (formatTodosForLine [bigTodo] "s" "t").length = 4996 := by
    rw [formatTodos_truncates [bigTodo] "s" "t" (by decide) hgt,
      String.length_append, hmk, List.length_take, hdata]
    decide
  have h2 : (formatTodosSpecStyle [bigTodo] "s" "t").length = 5000 := by
    rw [formatTodosSpec_truncates [bigTodo] "s" "t" (by decide) hgt,
      String.length_append, hmk, List.length_take, hdata]
    decide
  refine ⟨h1, h2, fun heq => ?_⟩
  rw [heq, h2] at h1
  cases h1

/-- C7, amended.  The output never exceeds 5000 characters, and an
over-limit rendering is truncated to `limit - 20` characters (a fixed
margin larger than the 16-character suffix) with the suffix appended,
for an output of at most 4996 characters. -/
theorem C7_length_cap (todos : List TodoItem) (sender subject : String)
    (h : todos ≠ []) :
    (formatTodosForLine todos sender subject).length ≤ 5000 ∧
    ((renderTodos todos sender subject).length > MAX_MESSAGE_LENGTH →
      formatTodosForLine todos sender subject =
        String.mk ((renderTodos todos sender subject).data.take
          (MAX_MESSAGE_LENGTH - 20)) ++ truncationSuffix) := by
  have hn : todos.length ≠ 0 := by simpa using h
  constructor
  · unfold formatTodosForLine
    rw [if_neg hn]
    by_cases hlen : (renderTodos todos sender subject).length > MAX_MESSAGE_LENGTH
    · rw [if_pos hlen, String.length_append]
      have hmk : (String.mk ((renderTodos todos sender subject).data.take
          (MAX_MESSAGE_LENGTH - 20))).length =
          ((renderTodos todos sender subject).data.take
            (MAX_MESSAGE_LENGTH - 20)).length := rfl
      have hb : ((renderTodos todos sender subject).data.take
          (MAX_MESSAGE_LENGTH - 20)).length ≤ 4980 := by
        rw [List.length_take]
        exact le_trans (Nat.min_le_left _ _) (by decide)
      have hts : truncationSuffix.length = 16 := rfl
      rw [hmk, hts]
      omega
    · rw [if_neg hlen]
      have : (renderTodos todos sender subject).length ≤ MAX_MESSAGE_LENGTH :=
        Nat.le_of_not_lt hlen
      exact this
  · intro hlen
    exact formatTodos_truncates todos sender subject hn hlen

/-- C7, witness for the amended theorem at the over-limit input. -/
theorem C7_witness :
    (formatTodosForLine [bigTodo] "s" "t").length ≤ 5000 ∧
    formatTodosForLine [bigTodo] "s" "t" =
      String.mk ((renderTodos [bigTodo] "s" "t").data.take
        (MAX_MESSAGE_LENGTH - 20)) ++ truncationSuffix := by
  have h := C7_length_cap [bigTodo] "s" "t" (by simp)
  exact ⟨h.1, h.2 (by rw [renderTodos_big_len]; decide)⟩

/-! ## Orchestrator lemmas -/

theorem processEmailA_summaries (env : Env) (config : AppConfig) (st : St)
    (email : EmailMessage) :
    (processEmailA env config st email).2.summaries = st.summaries := by
  unfold processEmailA doPush doWrite
  dsimp only
  split <;> (try split) <;> (try split) <;> (try split) <;> simp

theorem processEmailA_visited (env : Env) (config : AppConfig) (st : St)
    (email : EmailMessage) :
    (processEmailA env config st email).2.visited = st.visited ++ [email.id] := by
  unfold processEmailA doPush doWrite
  dsimp only
  split <;> (try split) <;> (try split) <;> (try split) <;> simp

theorem processEmailA_clockIdx (env : Env) (config : AppConfig) (st : St)
    (email : EmailMessage) :
    (processEmailA env config st email).2.clockIdx = st.clockIdx := by
  unfold processEmailA doPush doWrite
  dsimp only
  split <;> (try split) <;> (try split) <;> (try split) <;> simp

theorem processEmailA_extractIdx (env : Env) (config : AppConfig) (st : St)
    (email : EmailMessage) :
    (processEmailA env config st email).2.extractIdx = st.extractIdx + 1 := by
  unfold processEmailA doPush doWrite
  dsimp only
  split <;> (try split) <;> (try split) <;> (try split) <;> simp

/-- Every branch of `processEmail` (orchestrator A) that returns
normally advances the watermark exactly once, to this email's
`receivedDate`. -/
theorem processEmailA_ok_writes (env : Env) (config : AppConfig) (st : St)
    (email : EmailMessage) (n : Nat) (st' : St)
    (h : processEmailA env config st email = (.ok n, st')) :
    st'.writes = st.writes ++ [email.receivedDate] := by
  unfold processEmailA doPush doWrite at h
  dsimp only at h
  revert h
  split <;> (try split) <;> (try split) <;> (try split) <;> intro h <;>
    (cases h <;> simp)

/-- A throwing branch of `processEmail` (orchestrator A) does not touch
the watermark. -/
theorem processEmailA_error_writes (env : Env) (config : AppConfig) (st : St)
    (email : EmailMessage) (e : String) (st' : St)
    (h : processEmailA env config st email = (.error e, st')) :
    st'.writes = st.writes := by
  unfold processEmailA doPush doWrite at h
  dsimp only at h
  revert h
  split <;> (try split) <;> (try split) <;> (try split) <;> intro h <;>
    (cases h <;> simp)

/-- A first attempt that yields an HTTP response ends `withRetry`
immediately. -/
theorem pushMessage_first_response (oracle : Nat → FetchResult) (s : Nat)
    (b : String) (h : oracle 0 = .ok s b) :
    pushMessage oracle =
      { result := .ok (handleLineResponse s b), attemptsMade := 1,
        totalSleepMs := 0 } := by
  simp [pushMessage, withRetry, withRetryGo, sendToLineApi, h]

/-- Under a benign environment (every Gemini call parses, every LINE
push answers with some HTTP response on its first attempt),
`processEmail` (orchestrator A) returns normally. -/
theorem processEmailA_ok (env : Env) (config : AppConfig) (st : St)
    (email : EmailMessage)
    (hg : ∃ r, callGeminiAPI (env.gemini st.extractIdx) = .ok r)
    (hl : ∃ s b, env.lineFetch st.pushIdx 0 = .ok s b) :
    ∃ n st', processEmailA env config st email = (.ok n, st') := by
  obtain ⟨r, hr⟩ := hg
  obtain ⟨s, b, hb⟩ := hl
  unfold processEmailA geminiExtractTodos doPush doWrite
  dsimp only
  rw [hr]
  dsimp only
  split
  · exact ⟨0, _, rfl⟩
  · split
    · exact ⟨0, _, rfl⟩
    · rw [pushMessage_first_response _ s b hb]
      exact ⟨_, _, rfl⟩

/-- `processFilteredEmails` (orchestrator A) never touches the
run-summary trace, whatever the environment does. -/
theorem processFilteredEmailsA_summaries (env : Env) (config : AppConfig)
    (startTime : Int) :
    ∀ (emails : List EmailMessage) (st : St) (acc : Nat),
      (processFilteredEmailsA env config startTime emails st acc).2.summaries =
        st.summaries := by
  intro emails
  induction emails with
  | nil => intro st acc; simp [processFilteredEmailsA]
  | cons e rest ih =>
    intro st acc
    unfold processFilteredEmailsA readClock
    dsimp only
    split
    · rfl
    · split
      · rename_i res st' heq
        have := processEmailA_summaries env config
          { st with clockIdx := st.clockIdx + 1 } e
        rw [heq] at this
        exact this
      · rename_i res st' heq
        rw [ih]
        have := processEmailA_summaries env config
          { st with clockIdx := st.clockIdx + 1 } e
        rw [heq] at this
        exact this

/-- Benign-environment run of `processFilteredEmails` (orchestrator A):
with no deadline overrun, every email in the list is visited in order,
each contributing exactly one watermark write (its `receivedDate`), and
the loop returns normally. -/
theorem processFilteredEmailsA_benign (env : Env) (config : AppConfig)
    (startTime : Int)
    (hg : ∀ i, ∃ r, callGeminiAPI (env.gemini i) = .ok r)
    (hl : ∀ i, ∃ s b, env.lineFetch i 0 = .ok s b)
    (ht : ∀ i, env.clock i - startTime ≤ MAX_EXECUTION_TIME_MS) :
    ∀ (emails : List EmailMessage) (st : St) (acc : Nat),
      (processFilteredEmailsA env config startTime emails st acc).1.isOk ∧
      (processFilteredEmailsA env config startTime emails st acc).2.visited =
        st.visited ++ emails.map (fun e => e.id) ∧
      (processFilteredEmailsA env config startTime emails st acc).2.writes =
        st.writes ++ emails.map (fun e => e.receivedDate) := by
  intro emails
  induction emails with
  | nil => intro st acc; simp [processFilteredEmailsA, Except.isOk, Except.toBool]
  | cons e rest ih =>
    intro st acc
    unfold processFilteredEmailsA readClock
    dsimp only
    rw [if_neg (by exact not_lt.mpr (ht st.clockIdx))]
    obtain ⟨n, st', heq⟩ := processEmailA_ok env config
      { st with clockIdx := st.clockIdx + 1 } e (hg _) (hl _)
    rw [heq]
    obtain ⟨hok, hvis, hwr⟩ := ih st' (acc + n)
    refine ⟨hok, ?_, ?_⟩
    · rw [hvis]
      have hv := processEmailA_visited env config
        { st with clockIdx := st.clockIdx + 1 } e
      rw [heq] at hv
      rw [hv]
      simp
    · rw [hwr]
      have hw := processEmailA_ok_writes env config
        { st with clockIdx := st.clockIdx + 1 } e n st' heq
      rw [hw]
      simp

theorem sendRunSummaryA_summaries (env : Env) (st : St) (config : AppConfig)
    (emailsFound todosExtracted : Nat) (executionTimeSec : String)
    (status : RunStatus) (errorMsg : Option String) :
    (sendRunSummaryA env st config emailsFound todosExtracted executionTimeSec
        status errorMsg).summaries =
      st.summaries ++
        [{ emailsFound := emailsFound
           todosExtracted := todosExtracted
           executionTimeSec := executionTimeSec
           status := status
           errorMsg := errorMsg }] := by
  simp [sendRunSummaryA, doPush]

theorem sendRunSummaryA_writes (env : Env) (st : St) (config : AppConfig)
    (emailsFound todosExtracted : Nat) (executionTimeSec : String)
    (status : RunStatus) (errorMsg : Option String) :
    (sendRunSummaryA env st config emailsFound todosExtracted executionTimeSec
        status errorMsg).writes = st.writes := by
  simp [sendRunSummaryA, doPush]

/-- `filterMap` with an exclusion guard is `filter`-then-`map`. -/
theorem filterMap_guard {α β : Type} (f : α → β) (p : α → Bool) (l : List α) :
    l.filterMap (fun m => if p m then none else some (f m)) =
      (l.filter (fun m => p m = false)).map f := by
  induction l with
  | nil => rfl
  | cons a t ih =>
    by_cases hpa : p a
    · simp [List.filterMap_cons, List.filter_cons, hpa, ih]
    · simp [List.filterMap_cons, List.filter_cons, hpa, ih]

/-- The fetch loop is exactly: per returned thread, the messages dated
strictly after the watermark, in the mailbox's order. -/
theorem fetchLoop_eq (w : Option Int) (threads : List GThread) :
    fetchLoop w threads =
      threads.flatMap (fun thread =>
        (thread.messages.filter (fun m => jsLe m.date w = false)).map
          (mkEmailMessage thread)) := by
  unfold fetchLoop
  congr 1
  funext thread
  exact filterMap_guard (mkEmailMessage thread) (fun m => jsLe m.date w) _

/-- Every fetched email is dated strictly after the (non-`NaN`)
watermark. -/
theorem fetchLoop_mem_date (t : Int) (threads : List GThread) (e : EmailMessage)
    (h : e ∈ fetchLoop (some t) threads) : t < e.receivedDate := by
  rw [fetchLoop_eq] at h
  rw [List.mem_flatMap] at h
  obtain ⟨thread, _, hmem⟩ := h
  rw [List.mem_map] at hmem
  obtain ⟨m, hmf, rfl⟩ := hmem
  rw [List.mem_filter] at hmf
  have := hmf.2
  simp [jsLe] at this
  simpa [mkEmailMessage] using this

/-- The fetched ids are a sublist of the returned threads' message ids,
in order. -/
theorem fetchLoop_ids_sublist (w : Option Int) (threads : List GThread) :
    ((fetchLoop w threads).map (fun e => e.id)).Sublist
      ((threads.flatMap (fun th => th.messages)).map (fun m => m.id)) := by
  induction threads with
  | nil => simp [fetchLoop]
  | cons th rest ih =>
    rw [fetchLoop_eq] at *
    simp only [List.flatMap_cons, List.map_append]
    refine List.Sublist.append ?_ ih
    rw [List.map_map]
    have hcomp : ((fun e : EmailMessage => e.id) ∘ mkEmailMessage th) =
        fun m : GMessage => m.id := by
      funext m; rfl
    rw [hcomp]
    exact List.Sublist.map _ (List.filter_sublist _)

/-- Fetched message ids are drawn without duplication from the returned
threads (ids are unique when the mailbox's are). -/
theorem fetchLoop_nodup (w : Option Int) (threads : List GThread)
    (h : ((threads.flatMap (fun th => th.messages)).map (fun m => m.id)).Nodup) :
    ((fetchLoop w threads).map (fun e => e.id)).Nodup :=
  List.Nodup.sublist (fetchLoop_ids_sublist w threads) h

/-! ## Claim C2 -/

/-- C2, counterexample.  The claim says the Dispatcher never raises and
that after exhausting retries it returns a `succeeded = false` outcome
which the orchestrator records before continuing.  In the source,
`withRetry` rethrows the last error after its fourth failed attempt;
`processEmail` does not catch it, so the run aborts: the second fetched
email (`m1`, dated 3000) is never visited, no watermark is written, and
`processEmails` rethrows after a best-effort error summary. -/
theorem C2_counterexample :
    (processEmailsA envC2 demoStore).1 = .error "net down" ∧
    (processEmailsA envC2 demoStore).2.visited = ["m2"] ∧
    (processEmailsA envC2 demoStore).2.writes = [] ∧
    (processEmailsA envC2 demoStore).2.summaries =
      [{ emailsFound := 0, todosExtracted := 0, executionTimeSec := "0.00",
         status := .error, errorMsg := some "net down" }] := by
  refine ⟨rfl, rfl, rfl, rfl⟩

/-- C2, amended.  An attempt that yields an HTTP response (any status,
including failures) makes `pushMessage` return that response without
raising, and a run whose pushes all answer with responses — and whose
Gemini calls all succeed — visits every fetched message without
aborting; but when all four attempts of a push throw transport errors,
`pushMessage` rethrows the last error, which propagates and aborts the
run. -/
theorem C2_dispatch_failure_policy :
    (∀ (oracle : Nat → FetchResult) (s : Nat) (b : String),
      oracle 0 = .ok s b →
      (pushMessage oracle).result = .ok (handleLineResponse s b)) ∧
    (∀ (oracle : Nat → FetchResult) (m : String),
      (∀ j, oracle j = .throwErr m) →
      pushMessage oracle =
        { result := .error m, attemptsMade := 4, totalSleepMs := 7000 }) ∧
    (∀ (env : Env) (config : AppConfig) (startTime : Int),
      (∀ i, ∃ r, callGeminiAPI (env.gemini i) = .ok r) →
      (∀ i, ∃ s b, env.lineFetch i 0 = .ok s b) →
      (∀ i, env.clock i - startTime ≤ MAX_EXECUTION_TIME_MS) →
      ∀ (emails : List EmailMessage) (st : St) (acc : Nat),
        (processFilteredEmailsA env config startTime emails st acc).1.isOk ∧
        (processFilteredEmailsA env config startTime emails st acc).2.visited =
          st.visited ++ emails.map (fun e => e.id)) := by
  refine ⟨?_, ?_, ?_⟩
  · intro oracle s b h
    rw [pushMessage_first_response oracle s b h]
  · intro oracle m h
    simp [pushMessage, withRetry, withRetryGo, sendToLineApi, h 0, h 1, h 2, h 3]
  · intro env config startTime hg hl ht emails st acc
    obtain ⟨hok, hvis, _⟩ :=
      processFilteredEmailsA_benign env config startTime hg hl ht emails st acc
    exact ⟨hok, hvis⟩

/-- C2, witness for the amended theorem. -/
theorem C2_witness :
    (pushMessage (fun _ => .ok 500 "\x7b\x7d")).result =
      .ok (handleLineResponse 500 "\x7b\x7d") ∧
    pushMessage (fun _ => .throwErr "down") =
      { result := .error "down", attemptsMade := 4, totalSleepMs := 7000 } ∧
    (processFilteredEmailsA quietEnv demoConfig 0 [demoEmail] {} 0).1.isOk ∧
    (processFilteredEmailsA quietEnv demoConfig 0 [demoEmail] {} 0).2.visited =
      ([] : List String) ++ [demoEmail].map (fun e => e.id) := by
  refine ⟨C2_dispatch_failure_policy.1 _ 500 "\x7b\x7d" rfl,
    C2_dispatch_failure_policy.2.1 _ "down" (fun _ => rfl), ?_, ?_⟩
  · exact (C2_dispatch_failure_policy.2.2 quietEnv demoConfig 0
      (fun _ => ⟨"[]", rfl⟩) (fun _ => ⟨200, "\x7b\x7d", rfl⟩)
      (fun i => by show (0 : Int) - 0 ≤ MAX_EXECUTION_TIME_MS; decide)
      [demoEmail] {} 0).1
  · exact (C2_dispatch_failure_policy.2.2 quietEnv demoConfig 0
      (fun _ => ⟨"[]", rfl⟩) (fun _ => ⟨200, "\x7b\x7d", rfl⟩)
      (fun i => by show (0 : Int) - 0 ≤ MAX_EXECUTION_TIME_MS; decide)
      [demoEmail] {} 0).2

/-! ## Claim C4 -/

/-- C4, counterexample.  The watermark does advance to each visited
message's `receivedDate`, but because messages can be visited out of
ascending order (Gmail returns the newer thread first and the code never
re-sorts), the *final* stored watermark is the last visited message's
date — here 2000 — which is below the already-visited message `m1`
(dated 3000): the next run's fetch with watermark 2000 returns `m1`
again, so a visited message *is* reprocessed on a later run. -/
theorem C4_counterexample :
    (processEmailsA envC4 demoStore).2.writes = [3000, 2000] ∧
    (processEmailsA envC4 demoStore).2.visited = ["m1", "m2"] ∧
    "m1" ∈ (fetchNewEmailsV2 (some 2000) ["a@x.com"]
      [{ id := "t1", labels := [], messages := [msg3000] },
       { id := "t2", labels := [], messages := [msg2000] }]).map
        (fun e => e.id) := by
  refine ⟨rfl, rfl, ?_⟩
  rw [show (fetchNewEmailsV2 (some 2000) ["a@x.com"]
      [{ id := "t1", labels := [], messages := [msg3000] },
       { id := "t2", labels := [], messages := [msg2000] }]).map
        (fun e => e.id) = ["m1"] from rfl]
  exact List.mem_singleton_self _

/-- C4, amended.  In every normally-returning branch of `processEmail`
(orchestrator A) the watermark is advanced exactly once, to the
message's `receivedDate`, before the next message is visited (the
benign-run conjunct shows the writes accumulate in visit order); a
throwing branch writes nothing.  A visited message is guaranteed not to
be fetched by a later run only when its `receivedDate` is at or below
that run's watermark — every fetched email is dated strictly above the
watermark — so non-reprocessing holds when visits occur in ascending
`receivedDate` order, and can fail otherwise (see the counterexample). -/
theorem C4_watermark_per_message :
    (∀ (env : Env) (config : AppConfig) (st : St) (email : EmailMessage)
        (n : Nat) (st' : St),
      processEmailA env config st email = (.ok n, st') →
      st'.writes = st.writes ++ [email.receivedDate]) ∧
    (∀ (env : Env) (config : AppConfig) (st : St) (email : EmailMessage)
        (e : String) (st' : St),
      processEmailA env config st email = (.error e, st') →
      st'.writes = st.writes) ∧
    (∀ (env : Env) (config : AppConfig) (startTime : Int),
      (∀ i, ∃ r, callGeminiAPI (env.gemini i) = .ok r) →
      (∀ i, ∃ s b, env.lineFetch i 0 = .ok s b) →
      (∀ i, env.clock i - startTime ≤ MAX_EXECUTION_TIME_MS) →
      ∀ (emails : List EmailMessage) (st : St) (acc : Nat),
        (processFilteredEmailsA env config startTime emails st acc).2.writes =
          st.writes ++ emails.map (fun e => e.receivedDate)) ∧
    (∀ (t : Int) (threads : List GThread) (e : EmailMessage),
      e.receivedDate ≤ t → e ∉ fetchLoop (some t) threads) := by
  refine ⟨processEmailA_ok_writes, processEmailA_error_writes, ?_, ?_⟩
  · intro env config startTime hg hl ht emails st acc
    exact (processFilteredEmailsA_benign env config startTime hg hl ht
      emails st acc).2.2
  · intro t threads e hle hmem
    exact absurd (fetchLoop_mem_date t threads e hmem) (not_lt.mpr hle)

/-- C4, witness for the amended theorem. -/
theorem C4_witness :
    (processEmailA quietEnv demoConfig {} demoEmail).2.writes =
      ([] : List Int) ++ [demoEmail.receivedDate] ∧
    (processFilteredEmailsA quietEnv demoConfig 0 [demoEmail] {} 0).2.writes =
      ([] : List Int) ++ [demoEmail].map (fun e => e.receivedDate) ∧
    demoEmail ∉ fetchLoop (some 3000) demoThreads := by
  refine ⟨?_, ?_, ?_⟩
  · exact C4_watermark_per_message.1 quietEnv demoConfig {} demoEmail 0 _ rfl
  · exact C4_watermark_per_message.2.2.1 quietEnv demoConfig 0
      (fun _ => ⟨"[]", rfl⟩) (fun _ => ⟨200, "\x7b\x7d", rfl⟩)
      (fun i => by show (0 : Int) - 0 ≤ MAX_EXECUTION_TIME_MS; decide)
      [demoEmail] {} 0
  · exact C4_watermark_per_message.2.2.2 3000 demoThreads demoEmail (by decide)

/-! ## Claim C5 -/

/-- C5.  When the mailbox yields no new whitelisted messages, the
orchestrator (the `processEmails` of `src/email/EmailService.ts`, the
variant that dispatches run summaries) leaves the stored watermark
untouched (no `updateLastProcessedTime` call), returns normally, and
dispatches exactly one zero-activity summary reporting zero emails
fetched. -/
theorem C5_idempotent_empty_run (env : Env) (store : List (String × String))
    (config : AppConfig) (threads : List GThread)
    (hconf : getConfig store = .ok config)
    (hsearch : env.search = .ok threads)
    (hempty : fetchNewEmailsV2 config.lastProcessedTime config.senderWhitelist
      threads = []) :
    (processEmailsA env store).1 = .ok () ∧
    (processEmailsA env store).2.writes = [] ∧
    (processEmailsA env store).2.summaries =
      [{ emailsFound := 0, todosExtracted := 0,
         executionTimeSec := msToFixed2 (env.clock 2 - env.clock 0),
         status := .success, errorMsg := none }] := by
  unfold processEmailsA readClock
  dsimp only
  rw [hconf]
  dsimp only
  rw [hsearch]
  dsimp only
  rw [hempty]
  have hzero : (if env.clock 1 - env.clock 0 > MAX_EXECUTION_TIME_MS
      then ([] : List EmailMessage) else []) = [] := by
    split <;> rfl
  rw [hzero]
  unfold runBodyA readClock
  dsimp only [List.length_nil]
  rw [if_pos rfl]
  refine ⟨rfl, ?_, ?_⟩
  · rw [sendRunSummaryA_writes]
  · rw [sendRunSummaryA_summaries]
    norm_num

/-- C5, witness: a second run over an unchanged mailbox (everything at
or before the watermark) fetches nothing, writes nothing and sends the
zero summary. -/
theorem C5_witness :
    (processEmailsA quietEnv demoStore).1 = .ok () ∧
    (processEmailsA quietEnv demoStore).2.writes = [] ∧
    (processEmailsA quietEnv demoStore).2.summaries =
      [{ emailsFound := 0, todosExtracted := 0,
         executionTimeSec := msToFixed2 (quietEnv.clock 2 - quietEnv.clock 0),
         status := .success, errorMsg := none }] :=
  C5_idempotent_empty_run quietEnv demoStore demoConfig [] rfl rfl rfl

/-! ## Claim C6 -/

/-- C6, counterexample.  With whitelist `["a@x.com"]`, watermark 1000
and the mailbox returning thread `t1` (one message from `a@x.com` at
3000) before thread `t2` (a message from `a@x.com` at 2000 plus a reply
from `b@x.com` at 2500 in the same thread), the fetch loop visits dates
`[3000, 2000, 2500]` — not ascending — and includes the
non-whitelisted sender `b@x.com`, because the whitelist only shapes the
thread-level Gmail query and a matching thread contributes *all* its
messages.  The `maxEmailsPerRun` cap bounds threads, not messages: one
thread (cap 1) still yields 2 visited messages. -/
theorem C6_counterexample :
    (fetchNewEmailsV2 (some 1000) ["a@x.com"] demoThreads).map
      (fun e => e.receivedDate) = [3000, 2000, 2500] ∧
    (fetchNewEmailsV2 (some 1000) ["a@x.com"] demoThreads).map
      (fun e => e.fromAddr) = ["a@x.com", "a@x.com", "b@x.com"] ∧
    "b@x.com" ∉ (["a@x.com"] : List String) ∧
    ¬ List.Sorted (· ≤ ·) ((fetchNewEmailsV2 (some 1000) ["a@x.com"] demoThreads).map
      (fun e => e.receivedDate)) ∧
    (fetchNewEmailsV2 (some 1000) ["a@x.com"]
      [{ id := "t2", labels := [], messages := [msg2000, msg2500] }]).length = 2 := by
  refine ⟨rfl, rfl, by decide, ?_, rfl⟩
  rw [show (fetchNewEmailsV2 (some 1000) ["a@x.com"] demoThreads).map
      (fun e => e.receivedDate) = [3000, 2000, 2500] from rfl]
  intro hs
  have h32 := (List.sorted_cons.mp hs).1 2000 (by simp)
  omega

/-- C6, amended.  The fetch loop returns exactly the messages of the
threads the capped, whitelist-filtered search returned whose
`receivedDate` is strictly above the watermark, in the mailbox's
thread-then-message order (no re-sorting); ids are visited without
duplication whenever the mailbox's message ids are distinct; and in a
benign run the orchestrator visits exactly that list, in order.  The
whitelist and the cap act only on the thread-level query, so no
per-message whitelist or count bound holds (see the counterexample). -/
theorem C6_fetch_characterization :
    (∀ (w : Option Int) (wl : List String) (threads : List GThread),
      fetchNewEmailsV2 w wl threads =
        threads.flatMap (fun thread =>
          (thread.messages.filter (fun m => jsLe m.date w = false)).map
            (mkEmailMessage thread))) ∧
    (∀ (t : Int) (wl : List String) (threads : List GThread) (e : EmailMessage),
      e ∈ fetchNewEmailsV2 (some t) wl threads → t < e.receivedDate) ∧
    (∀ (w : Option Int) (wl : List String) (threads : List GThread),
      ((threads.flatMap (fun th => th.messages)).map (fun m => m.id)).Nodup →
      ((fetchNewEmailsV2 w wl threads).map (fun e => e.id)).Nodup) ∧
    (∀ (env : Env) (config : AppConfig) (startTime : Int),
      (∀ i, ∃ r, callGeminiAPI (env.gemini i) = .ok r) →
      (∀ i, ∃ s b, env.lineFetch i 0 = .ok s b) →
      (∀ i, env.clock i - startTime ≤ MAX_EXECUTION_TIME_MS) →
      ∀ (emails : List EmailMessage) (st : St) (acc : Nat),
        (processFilteredEmailsA env config startTime emails st acc).2.visited =
          st.visited ++ emails.map (fun e => e.id)) := by
  refine ⟨?_, ?_, ?_, ?_⟩
  · intro w wl threads
    exact fetchLoop_eq w threads
  · intro t wl threads e h
    exact fetchLoop_mem_date t threads e h
  · intro w wl threads h
    exact fetchLoop_nodup w threads h
  · intro env config startTime hg hl ht emails st acc
    exact (processFilteredEmailsA_benign env config startTime hg hl ht
      emails st acc).2.1

/-- C6, witness for the amended theorem on the demo mailbox. -/
theorem C6_witness :
    fetchNewEmailsV2 (some 1000) ["a@x.com"] demoThreads =
      demoThreads.flatMap (fun thread =>
        (thread.messages.filter (fun m => jsLe m.date (some 1000) = false)).map
          (mkEmailMessage thread)) ∧
    (1000 : Int) < demoEmail.receivedDate ∧
    ((fetchNewEmailsV2 (some 1000) ["a@x.com"] demoThreads).map
      (fun e => e.id)).Nodup ∧
    (processFilteredEmailsA quietEnv demoConfig 0 [demoEmail] {} 0).2.visited =
      ([] : List String) ++ [demoEmail].map (fun e => e.id) := by
  refine ⟨C6_fetch_characterization.1 (some 1000) ["a@x.com"] demoThreads, ?_, ?_, ?_⟩
  · exact C6_fetch_characterization.2.1 1000 ["a@x.com"] demoThreads demoEmail
      (by rw [show fetchNewEmailsV2 (some 1000) ["a@x.com"] demoThreads =
        demoEmail :: (fetchNewEmailsV2 (some 1000) ["a@x.com"] demoThreads).tail
        from rfl]; exact List.mem_cons_self _ _)
  · exact C6_fetch_characterization.2.2.1 (some 1000) ["a@x.com"] demoThreads
      (by decide)
  · exact C6_fetch_characterization.2.2.2 quietEnv demoConfig 0
      (fun _ => ⟨"[]", rfl⟩) (fun _ => ⟨200, "\x7b\x7d", rfl⟩)
      (fun i => by show (0 : Int) - 0 ≤ MAX_EXECUTION_TIME_MS; decide)
      [demoEmail] {} 0

/-- Whatever happens inside the `try` block, exactly one summary is
appended. -/
theorem runBodyA_summaries (env : Env) (config : AppConfig) (startTime : Int)
    (emails : List EmailMessage) (st : St) :
    (runBodyA env config startTime emails st).2.summaries.length =
      st.summaries.length + 1 := by
  unfold runBodyA readClock
  dsimp only
  split
  · rw [sendRunSummaryA_summaries]
    simp
  · split
    · rename_i total st' heq
      rw [sendRunSummaryA_summaries]
      have hsum := processFilteredEmailsA_summaries env config startTime emails st 0
      rw [heq] at hsum
      have hsum' : st'.summaries = st.summaries := hsum
      simp [hsum']
    · rename_i err st' heq
      rw [sendRunSummaryA_summaries]
      have hsum := processFilteredEmailsA_summaries env config startTime emails st 0
      rw [heq] at hsum
      have hsum' : st'.summaries = st.summaries := hsum
      simp [hsum']

/-! ## Claim C8 -/

/-- C8, counterexample.  The claim says every run with a successful
config load dispatches exactly one summary.  In the source, the mailbox
fetch happens *before* the `try` block of `processEmails`, so a
`GmailApp.search` failure propagates with no summary dispatched even
though configuration loading succeeded. -/
theorem C8_counterexample :
    (getConfig demoStore).isOk = true ∧
    (processEmailsA envC8 demoStore).1 = .error "Gmail down" ∧
    (processEmailsA envC8 demoStore).2.summaries = [] ∧
    (processEmailsA envC8 demoStore).2.pushes = [] := by
  exact ⟨rfl, rfl, rfl, rfl⟩

/-- C8, amended.  When configuration loading *and* the mailbox fetch
both succeed, every path — zero emails, normal completion, or a caught
error — dispatches exactly one run summary; when configuration loading
fails, or when the mailbox fetch throws, no summary is dispatched. -/
theorem C8_one_summary_per_run :
    (∀ (env : Env) (store : List (String × String)) (config : AppConfig)
        (threads : List GThread),
      getConfig store = .ok config → env.search = .ok threads →
      (processEmailsA env store).2.summaries.length = 1) ∧
    (∀ (env : Env) (store : List (String × String)) (e : String),
      getConfig store = .error e →
      (processEmailsA env store).2.summaries = [] ∧
      (processEmailsA env store).2.pushes = []) ∧
    (∀ (env : Env) (store : List (String × String)) (config : AppConfig)
        (e : String),
      getConfig store = .ok config → env.search = .error e →
      (processEmailsA env store).2.summaries = [] ∧
      (processEmailsA env store).2.pushes = []) := by
  refine ⟨?_, ?_, ?_⟩
  · intro env store config threads hconf hsearch
    unfold processEmailsA readClock
    dsimp only
    rw [hconf]
    dsimp only
    rw [hsearch]
    dsimp only
    rw [runBodyA_summaries]
    rfl
  · intro env store e hconf
    unfold processEmailsA readClock
    dsimp only
    rw [hconf]
    exact ⟨rfl, rfl⟩
  · intro env store config e hconf hsearch
    unfold processEmailsA readClock
    dsimp only
    rw [hconf]
    dsimp only
    rw [hsearch]
    exact ⟨rfl, rfl⟩

/-- C8, witness for the amended theorem. -/
theorem C8_witness :
    (processEmailsA quietEnv demoStore).2.summaries.length = 1 ∧
    (processEmailsA quietEnv []).2.summaries = [] ∧
    (processEmailsA envC8 demoStore).2.pushes = [] :=
  ⟨C8_one_summary_per_run.1 quietEnv demoStore demoConfig [] rfl rfl,
   (C8_one_summary_per_run.2.1 quietEnv []
     "Configuration error: lineAccessToken not found in Script Properties" rfl).1,
   (C8_one_summary_per_run.2.2 envC8 demoStore demoConfig "Gmail down" rfl rfl).2⟩

/-! ## Orchestrator B lemmas (`src/main.ts`) -/

theorem processEmailB_writes (env : Env) (config : AppConfig) (st : St)
    (email : EmailMessage) :
    (processEmailB env config st email).2.writes = st.writes := by
  unfold processEmailB doPush
  dsimp only
  split <;> (try split) <;> (try split) <;> (try split) <;> simp

theorem processEmailB_clockIdx (env : Env) (config : AppConfig) (st : St)
    (email : EmailMessage) :
    (processEmailB env config st email).2.clockIdx = st.clockIdx := by
  unfold processEmailB doPush
  dsimp only
  split <;> (try split) <;> (try split) <;> (try split) <;> simp

theorem processEmailB_ok (env : Env) (config : AppConfig) (st : St)
    (email : EmailMessage)
    (hl : ∃ s b, env.lineFetch st.pushIdx 0 = .ok s b) :
    ∃ n st', processEmailB env config st email = (.ok n, st') := by
  obtain ⟨s, b, hb⟩ := hl
  unfold processEmailB doPush
  dsimp only
  split
  all_goals
    split
    · exact ⟨0, _, rfl⟩
    · split
      · exact ⟨0, _, rfl⟩
      · rw [pushMessage_first_response _ s b hb]
        exact ⟨_, _, rfl⟩

/-- Benign run of `processFilteredEmails` (orchestrator B): the loop
completes, never writes the watermark, and reads the clock once per
email. -/
theorem processFilteredEmailsB_benign (env : Env) (config : AppConfig)
    (startTime : Int)
    (hl : ∀ i, ∃ s b, env.lineFetch i 0 = .ok s b)
    (ht : ∀ i, env.clock i - startTime ≤ MAX_EXECUTION_TIME_MS) :
    ∀ (emails : List EmailMessage) (st : St) (acc : Nat),
      ∃ total st',
        processFilteredEmailsB env config startTime emails st acc =
          (.ok total, st') ∧
        st'.writes = st.writes ∧
        st'.clockIdx = st.clockIdx + emails.length := by
  intro emails
  induction emails with
  | nil => intro st acc; exact ⟨acc, st, by simp [processFilteredEmailsB]⟩
  | cons e rest ih =>
    intro st acc
    unfold processFilteredEmailsB readClock
    dsimp only
    rw [if_neg (by exact not_lt.mpr (ht st.clockIdx))]
    obtain ⟨n, st', heq⟩ := processEmailB_ok env config
      { st with clockIdx := st.clockIdx + 1 } e (hl _)
    rw [heq]
    obtain ⟨total, st'', heq2, hw, hc⟩ := ih st' (acc + n)
    refine ⟨total, st'', heq2, ?_, ?_⟩
    · rw [hw]
      have := processEmailB_writes env config
        { st with clockIdx := st.clockIdx + 1 } e
      rw [heq] at this
      exact this
    · rw [hc]
      have := processEmailB_clockIdx env config
        { st with clockIdx := st.clockIdx + 1 } e
      rw [heq] at this
      have hc' : st'.clockIdx = st.clockIdx + 1 := this
      rw [hc']
      simp [List.length_cons]
      omega

/-! ## Claim C10 -/

/-- C10.  In the bundled entry point (`src/main.ts`, the webpack entry),
the watermark written at the end of a run is a wall-clock reading: with
zero whitelisted emails it is the clock value read in that branch
(`new Date().getTime()`, the third reading), and after a completed
processing loop it is the reading captured after the loop — never any
message's `receivedDate`.  Consequently a message dated at or before the
written watermark is never returned by a later fetch, even though no run
ever visited it. -/
theorem C10_wallclock_watermark :
    (∀ (env : Env) (store : List (String × String)) (config : AppConfig)
        (threads : List GThread),
      getConfig store = .ok config → env.search = .ok threads →
      filterBySender (fetchNewEmailsV1 config.lastProcessedTime threads)
        config.senderWhitelist = [] →
      (processEmailsB env store).1 = .ok () ∧
      (processEmailsB env store).2.writes = [env.clock 2]) ∧
    (∀ (env : Env) (store : List (String × String)) (config : AppConfig)
        (threads : List GThread),
      getConfig store = .ok config → env.search = .ok threads →
      (∀ i, ∃ s b, env.lineFetch i 0 = .ok s b) →
      (∀ i, env.clock i - env.clock 0 ≤ MAX_EXECUTION_TIME_MS) →
      filterBySender (fetchNewEmailsV1 config.lastProcessedTime threads)
        config.senderWhitelist ≠ [] →
      (processEmailsB env store).1 = .ok () ∧
      (processEmailsB env store).2.writes =
        [env.clock (2 + (filterBySender
          (fetchNewEmailsV1 config.lastProcessedTime threads)
          config.senderWhitelist).length)]) ∧
    (∀ (t : Int) (threads : List GThread) (e : EmailMessage),
      e.receivedDate ≤ t → e ∉ fetchNewEmailsV1 (some t) threads) := by
  refine ⟨?_, ?_, ?_⟩
  · intro env store config threads hconf hsearch hempty
    unfold processEmailsB readClock
    dsimp only
    rw [hconf]
    dsimp only
    rw [hsearch]
    dsimp only
    rw [hempty]
    have hzero : (if env.clock 1 - env.clock 0 > MAX_EXECUTION_TIME_MS
        then ([] : List EmailMessage) else []) = [] := by
      split <;> rfl
    rw [hzero]
    dsimp only [List.length_nil]
    rw [if_pos rfl]
    unfold doWrite
    refine ⟨rfl, by norm_num⟩
  · intro env store config threads hconf hsearch hl ht hne
    unfold processEmailsB readClock
    dsimp only
    rw [hconf]
    dsimp only
    rw [hsearch]
    dsimp only
    have hdl : (if env.clock (0 + 1) - env.clock 0 > MAX_EXECUTION_TIME_MS
        then ([] : List EmailMessage)
        else filterBySender (fetchNewEmailsV1 config.lastProcessedTime threads)
          config.senderWhitelist)
        = filterBySender (fetchNewEmailsV1 config.lastProcessedTime threads)
          config.senderWhitelist :=
      if_neg (not_lt.mpr (ht (0 + 1)))
    rw [hdl]
    rw [if_neg (by
      intro hlen
      exact hne (List.length_eq_zero.mp hlen))]
    obtain ⟨total, st', heq, hw, hc⟩ := processFilteredEmailsB_benign env config
      (env.clock 0) hl ht
      (filterBySender (fetchNewEmailsV1 config.lastProcessedTime threads)
        config.senderWhitelist)
      { clockIdx := 0 + 1 + 1, extractIdx := 0, pushIdx := 0, visited := [],
        writes := [], pushes := [], summaries := [] } 0
    rw [heq]
    unfold doWrite
    dsimp only
    refine ⟨rfl, ?_⟩
    rw [hw, hc]
    norm_num
  · intro t threads e hle hmem
    exact absurd (fetchLoop_mem_date t threads e hmem) (not_lt.mpr hle)

/-- C10, witness: one whitelisted email (sender `b@x.com` in
`demoStoreB`'s whitelist), benign environment: the run completes and the
single write is the clock reading after the loop (index 3). -/
theorem C10_witness :
    (processEmailsB envOneEmail demoStoreB).1 = .ok () ∧
    (processEmailsB envOneEmail demoStoreB).2.writes = [envOneEmail.clock (2 + 1)] ∧
    demoEmail ∉ fetchNewEmailsV1 (some 3000) demoThreads := by
  have hconf : getConfig demoStoreB =
      .ok { lineAccessToken := "tok", lineGroupId := "G1", geminiApiKey := "key",
            senderWhitelist := ["b@x.com"], lastProcessedTime := some 1000,
            maxEmailsPerRun := some 100 } := rfl
  have h := C10_wallclock_watermark.2.1 envOneEmail demoStoreB _ _ hconf rfl
    (fun _ => ⟨200, "\x7b\x7d", rfl⟩)
    (fun i => by show (0 : Int) - 0 ≤ MAX_EXECUTION_TIME_MS; decide)
    (by intro h; cases h)
  refine ⟨h.1, ?_, ?_⟩
  · rw [h.2]
    rfl
  · exact C10_wallclock_watermark.2.2 3000 demoThreads demoEmail (by decide)
